import Mathlib

/-!
Verification development for the multi-agent retrieval-and-decision pipeline
(semantic chunker, hybrid retrieval, rule validation, decision engine,
traceability mapper).  The Python sources are shallowly embedded: pure
functions become Lean functions over `String`/`List`/`ℚ` (Python floats are
idealised as exact rationals, and as reals where square roots occur);
stateful agents become explicit state passing; fallible code returns
`Except`.  Wall-clock timestamps, logging and randomly generated UUIDs are
threaded as explicit parameters or omitted where noted.
-/

set_option maxHeartbeats 1000000

/-! ### Python-style string and dict primitives -/

/-- Dropping a prefix never lengthens a list (termination helper). -/
theorem dropWhile_length_le {α : Type} (p : α → Bool) (l : List α) :
    (l.dropWhile p).length ≤ l.length := by
  induction l with
  | nil => simp [List.dropWhile]
  | cons c rest ih =>
    simp only [List.dropWhile]
    split
    · exact le_trans ih (Nat.le_succ _)
    · simp

/-- Python whitespace characters recognised by `\s`, `str.split()` and
`str.strip()` (ASCII range; our inputs are ASCII). -/
def pyIsSpace (c : Char) : Bool :=
  c = ' ' ∨ c = '\t' ∨ c = '\n' ∨ c = '\r' ∨ c = '\x0b' ∨ c = '\x0c'

/-- Python regex word character `\w` (ASCII range). -/
def pyIsWordChar (c : Char) : Bool :=
  c.isAlphanum ∨ c = '_'

/-- Python `str.lower()` (ASCII). -/
def pyLower (s : String) : String :=
  String.mk (s.toList.map Char.toLower)

/-- Python `str.strip()`: remove leading and trailing whitespace. -/
def pyStrip (s : String) : String :=
  String.mk (((s.toList.dropWhile pyIsSpace).reverse.dropWhile pyIsSpace).reverse)

/-- Python `needle in haystack` on lists of characters (contiguous
sublist test). -/
def subChars (needle : List Char) : List Char → Bool
  | [] => needle.isPrefixOf []
  | c :: rest => needle.isPrefixOf (c :: rest) || subChars needle rest

/-- Python `needle in haystack` on strings (substring test). -/
def strIn (needle haystack : String) : Bool :=
  subChars needle.toList haystack.toList

/-- Helper for `pySplitWs`. -/
def pySplitWsAux : List Char → List String
  | [] => []
  | c :: rest =>
    if pyIsSpace c then pySplitWsAux rest
    else
      String.mk (c :: rest.takeWhile (fun d => ¬ pyIsSpace d)) ::
        pySplitWsAux (rest.dropWhile (fun d => ¬ pyIsSpace d))
termination_by l => l.length
decreasing_by
  · simp only [List.length_cons]; omega
  · have := dropWhile_length_le (fun d => ¬ pyIsSpace d) rest
    simp only [List.length_cons]; omega

unseal pySplitWsAux

/-- Python `str.split()` (no separator): split on whitespace runs,
discarding empty pieces. -/
def pySplitWs (s : String) : List String :=
  pySplitWsAux s.toList

/-- Value of one extracted entity: the query parser stores a single string
when a pattern matched once and the full list of matches otherwise. -/
inductive EntityValue where
  | one (s : String)
  | many (l : List String)
deriving DecidableEq, Repr

/-- Python `str(value)` on an entity value: a string prints as itself, a
list of strings prints as `['a', 'b']`. -/
def pyStr : EntityValue → String
  | .one s => s
  | .many l => "[" ++ String.intercalate ", " (l.map (fun x => "\x27" ++ x ++ "\x27")) ++ "]"

/-- Python truthiness of an entity value (`if entities[entity]`): empty
strings and empty lists are falsy. -/
def pyTruthy : EntityValue → Bool
  | .one s => s ≠ ""
  | .many l => l ≠ []

/-- Insertion-ordered string-keyed dictionary, modelling Python `dict`. -/
def Dict (α : Type) : Type := List (String × α)

instance {α : Type} [DecidableEq α] : DecidableEq (Dict α) := by
  unfold Dict; infer_instance

/-- Python `d.get(k)` / `k in d`: first (and only) entry with the key. -/
def dictGet {α : Type} (d : Dict α) (k : String) : Option α :=
  match d with
  | [] => none
  | (k', v) :: rest => if k' = k then some v else dictGet rest k

/-- Python `d.get(k, default)`. -/
def dictGetD {α : Type} (d : Dict α) (k : String) (dflt : α) : α :=
  (dictGet d k).getD dflt

/-- Python `k in d`. -/
def dictMem {α : Type} (d : Dict α) (k : String) : Bool :=
  (dictGet d k).isSome

/-- Python `d[k] = v`: update in place if the key exists (its position is
preserved), else append. -/
def dictInsert {α : Type} (d : Dict α) (k : String) (v : α) : Dict α :=
  match d with
  | [] => [(k, v)]
  | (k', v') :: rest =>
    if k' = k then (k', v) :: rest else (k', v') :: dictInsert rest k v

/-- Python `d.values()` in insertion order. -/
def dictValues {α : Type} (d : Dict α) : List α :=
  d.map Prod.snd

/-- Extracted entities: field name → extracted value, as produced by the
query parser. -/
def Entities : Type := Dict EntityValue

instance : DecidableEq Entities := by unfold Entities; infer_instance

/-- Digit string to natural number (callers guarantee digits only). -/
def digitsToNat (l : List Char) : ℕ :=
  l.foldl (fun a c => a * 10 + (c.toNat - 48)) 0

/-- Segments of a character list split at every `.`. -/
def splitOnDot : List Char → List (List Char)
  | [] => [[]]
  | c :: rest =>
    if c = '.' then [] :: splitOnDot rest
    else (splitOnDot rest).modifyHead (c :: ·)

/-- Python `float(s)` on a string of digits and dots (the only shape the
validation agent ever passes after filtering): `none` models `ValueError`.
Accepts at most one dot and at least one digit, like `float`. -/
def pyFloatOpt (s : String) : Option ℚ :=
  if s.toList.any Char.isDigit then
    match splitOnDot s.toList with
    | [ip] => some (digitsToNat ip)
    | [ip, fp] => some ((digitsToNat ip : ℚ) +
        (digitsToNat fp : ℚ) / (10 ^ fp.length))
    | _ => none
  else none

/-- Python `int(s)`: optional sign, at least one digit, nothing else
(leading/trailing whitespace allowed); `Except.error` models `ValueError`
with its message. -/
def pyIntParse (s : String) : Except String ℤ :=
  let t := (s.toList.dropWhile pyIsSpace).reverse.dropWhile pyIsSpace |>.reverse
  let (sign, ds) : ℤ × List Char :=
    match t with
    | '-' :: rest => (-1, rest)
    | '+' :: rest => (1, rest)
    | _ => (1, t)
  if ds ≠ [] ∧ ds.all Char.isDigit then
    Except.ok (sign * (digitsToNat ds : ℤ))
  else
    Except.error ("invalid literal for int with base 10: " ++ s)

/-- Round half to even on rationals, as Python `round` and `format`
idealise to under exact arithmetic. -/
def roundHalfEven (q : ℚ) : ℤ :=
  let f := ⌊q⌋
  let r := q - f
  if r < 1/2 then f
  else if 1/2 < r then f + 1
  else if f % 2 = 0 then f else f + 1

/-- Python `round(x, 2)` idealised over exact rationals. -/
def pyRound2 (q : ℚ) : ℚ :=
  (roundHalfEven (q * 100) : ℚ) / 100

/-- Left-pad a digit string with zeros to the given width. -/
def padZeros (n : ℕ) (s : String) : String :=
  String.mk (List.replicate (n - s.length) '0') ++ s

/-- Python fixed-point formatting `f-string {x:.ndf}` idealised over exact
rationals (round half to even). -/
def formatFixed (nd : ℕ) (q : ℚ) : String :=
  let sign := if q < 0 then "-" else ""
  let scaled := roundHalfEven (|q| * (10 ^ nd : ℚ))
  let ip := scaled / (10 ^ nd : ℤ)
  let fp := scaled % (10 ^ nd : ℤ)
  if nd = 0 then sign ++ toString ip
  else sign ++ toString ip ++ "." ++ padZeros nd (toString fp.toNat)

/-- Python percent formatting `f-string {x:.1%}`. -/
def formatPercent1 (q : ℚ) : String :=
  formatFixed 1 (q * 100) ++ "%"

/-- Python `''.join(filter(str.isdigit, s))`. -/
def keepDigits (s : String) : String :=
  String.mk (s.toList.filter Char.isDigit)

/-- Python `re.findall(r'\d+', s)`: maximal runs of digits. -/
def findallDigits : List Char → List String
  | [] => []
  | c :: rest =>
    if c.isDigit then
      String.mk (c :: rest.takeWhile Char.isDigit) ::
        findallDigits (rest.dropWhile Char.isDigit)
    else findallDigits rest
termination_by l => l.length
decreasing_by
  · have := dropWhile_length_le Char.isDigit rest
    simp only [List.length_cons]; omega
  · simp only [List.length_cons]; omega

unseal findallDigits

/-! ### Data model shared by validation, decision and mapping agents
(`src/models/schemas.py`, `src/agents/validation_agent.py`) -/

/-- Schema `SourceClause` (schemas.py): a retrieved policy clause.
`relevance_score` is a Python float, idealised as `ℚ` here (the
retrieval-side real-valued scores live in `RSourceClause` below). -/
structure SourceClause where
  document_name : String
  clause_id : String
  clause_text : String
  relevance_score : ℚ
  page_number : Option ℤ
deriving DecidableEq, Repr

/-- Result of `ValidationAgent.validate_claim`.  `validation_details` is a
dict from detail key to `(status, explanation)`. -/
structure ValidationResult where
  is_valid : Bool
  violated_rules : List String
  satisfied_rules : List String
  warnings : List String
  validation_details : Dict (String × String)
deriving DecidableEq

/-! ### Validation agent (`src/agents/validation_agent.py`) -/

/-- Condition kinds appearing in the default rule set, as a closed union
(the source stores them as dict entries; the `gender` kind and the
unknown-kind default-to-true branch are not exercised by any default rule
and are included/omitted as noted on `check_condition`). -/
inductive Condition where
  | min_age (v : ℚ)
  | max_age (v : ℚ)
  | gender (l : List String)
  | waiting_period_days (v : ℤ)
  | covered_procedures (l : List String)
  | excluded_procedures (l : List String)
  | covered_locations (l : List String)
  | max_claim_amount (v : ℚ)
  | requires_pre_authorization (b : Bool)
deriving DecidableEq, Repr

/-- The `condition_type` key string of a condition (dict key in source). -/
def Condition.typeName : Condition → String
  | .min_age _ => "min_age"
  | .max_age _ => "max_age"
  | .gender _ => "gender"
  | .waiting_period_days _ => "waiting_period_days"
  | .covered_procedures _ => "covered_procedures"
  | .excluded_procedures _ => "excluded_procedures"
  | .covered_locations _ => "covered_locations"
  | .max_claim_amount _ => "max_claim_amount"
  | .requires_pre_authorization _ => "requires_pre_authorization"

/-- `PolicyRule` (validation_agent.py line 28). -/
structure PolicyRule where
  rule_id : String
  name : String
  conditions : List Condition
  action : String
  priority : ℕ
deriving DecidableEq, Repr

/-- `PolicyRule._extract_numeric_value` (line 118): strip characters other
than digits and `.`, then `float(...)`, with 0.0 on failure/empty. -/
def extract_numeric_value (v : EntityValue) : ℚ :=
  let numeric := String.mk ((pyStr v).toList.filter (fun c => c.isDigit || c = '.'))
  if numeric = "" then 0 else (pyFloatOpt numeric).getD 0

/-- `PolicyRule._extract_policy_duration` (line 130): first digit run,
scaled by the time unit found in the string. -/
def extract_policy_duration (v : EntityValue) : ℤ :=
  let s := pyLower (pyStr v)
  match findallDigits s.toList with
  | [] => 0
  | n :: _ =>
    let value : ℤ := digitsToNat n.toList
    if strIn "year" s || strIn "yr" s then value * 365
    else if strIn "month" s then value * 30
    else if strIn "week" s then value * 7
    else value

/-- Python `context.get(key, default-string)` followed by the
list-vs-string normalisation `' '.join(lst).lower()` / `str(x).lower()`
used by the procedure/location conditions. -/
def getJoinedLower (ctx : Entities) (key : String) : String :=
  match dictGet ctx key with
  | none => ""
  | some (.one s) => pyLower s
  | some (.many l) => pyLower (String.intercalate " " l)

/-- `PolicyRule._check_condition` (line 59), one branch per condition
kind of the source. -/
def check_condition (c : Condition) (ctx : Entities) : Bool :=
  match c with
  | .min_age v =>
    extract_numeric_value (dictGetD ctx "age" (.one "0")) ≥ v
  | .max_age v =>
    extract_numeric_value (dictGetD ctx "age" (.one "0")) ≤ v
  | .gender l =>
    let g := match dictGet ctx "gender" with
      | some (.one s) => pyLower s
      | some (.many m) => pyLower (pyStr (.many m))
      | none => ""
    l.any (fun x => pyLower x = g)
  | .waiting_period_days v =>
    extract_policy_duration (dictGetD ctx "policy_duration" (.one "0")) ≥ v
  | .covered_procedures l =>
    let p := getJoinedLower ctx "procedure"
    l.any (fun proc => strIn (pyLower proc) p)
  | .excluded_procedures l =>
    let p := getJoinedLower ctx "procedure"
    ¬ l.any (fun proc => strIn (pyLower proc) p)
  | .covered_locations l =>
    let loc := getJoinedLower ctx "location"
    l.any (fun x => strIn (pyLower x) loc)
  | .max_claim_amount v =>
    extract_numeric_value (dictGetD ctx "amount" (.one "0")) ≤ v
  | .requires_pre_authorization _ =>
    let p := getJoinedLower ctx "procedure"
    ¬ (["surgery", "operation", "transplant", "cardiac"].any
        (fun proc => strIn proc p))

/-- `PolicyRule.evaluate` (line 38): all conditions must hold; the
explanation names the first failing condition.  No condition branch can
raise, so the `except` arm of the source is unreachable here. -/
def PolicyRule.evaluate (r : PolicyRule) (ctx : Entities) : Bool × String :=
  match r.conditions.find? (fun c => ¬ check_condition c ctx) with
  | some c => (false, "Rule " ++ r.name ++ ": " ++ c.typeName ++ " condition not met")
  | none => (true, "Rule " ++ r.name ++ ": all conditions satisfied")

/-- Default rule `age_limit` (validation_agent.py line 168). -/
def ageLimitRule : PolicyRule :=
  ⟨"age_limit", "Age Eligibility", [.min_age 18, .max_age 80],
    "check_age_eligibility", 1⟩

/-- Default rule `waiting_period` (line 175). -/
def waitingPeriodRule : PolicyRule :=
  ⟨"waiting_period", "Waiting Period Check", [.waiting_period_days 90],
    "check_waiting_period", 2⟩

/-- Default rule `covered_procedures` (line 182). -/
def coveredProceduresRule : PolicyRule :=
  ⟨"covered_procedures", "Procedure Coverage",
    [.covered_procedures ["knee surgery", "hip surgery", "cardiac surgery",
      "dental", "eye surgery", "general surgery", "orthopedic", "treatment"]],
    "check_procedure_coverage", 3⟩

/-- Default rule `excluded_procedures` (line 192). -/
def excludedProceduresRule : PolicyRule :=
  ⟨"excluded_procedures", "Excluded Procedures",
    [.excluded_procedures ["cosmetic", "plastic surgery", "experimental", "elective"]],
    "reject_excluded_procedure", 1⟩

/-- Default rule `geographic_coverage` (line 201). -/
def geographicCoverageRule : PolicyRule :=
  ⟨"geographic_coverage", "Geographic Coverage",
    [.covered_locations ["pune", "mumbai", "delhi", "bangalore", "chennai",
      "hyderabad", "kolkata", "ahmedabad", "india"]],
    "check_geographic_coverage", 2⟩

/-- Default rule `claim_amount_limit` (line 211). -/
def claimAmountLimitRule : PolicyRule :=
  ⟨"claim_amount_limit", "Maximum Claim Amount", [.max_claim_amount 500000],
    "check_claim_limit", 2⟩

/-- Default rule `pre_authorization` (line 218). -/
def preAuthorizationRule : PolicyRule :=
  ⟨"pre_authorization", "Pre-authorization Required",
    [.requires_pre_authorization true], "require_pre_auth", 3⟩

/-- The seven default rules installed by
`ValidationAgent._initialize_default_rules` (line 165), in source order. -/
def defaultRules : List PolicyRule :=
  [ageLimitRule, waitingPeriodRule, coveredProceduresRule,
   excludedProceduresRule, geographicCoverageRule, claimAmountLimitRule,
   preAuthorizationRule]

/-- `ValidationAgent._contains_coverage_language` (line 347). -/
def contains_coverage_language (text : String) : Bool :=
  ["covered", "eligible", "included", "benefits", "reimbursement",
   "payment", "approved", "qualified"].any (fun t => strIn t text)

/-- `ValidationAgent._contains_exclusion_language` (line 355). -/
def contains_exclusion_language (text : String) : Bool :=
  ["excluded", "not covered", "limitation", "restriction",
   "prohibited", "denied", "rejected"].any (fun t => strIn t text)

/-- `ValidationAgent._check_entity_in_clause` (line 363): only
single-string entity values participate (`isinstance(value, str)`). -/
def check_entity_in_clause (entities : Entities) (clause_text : String) : Bool :=
  entities.any (fun (_, v) =>
    match v with
    | .one s => strIn (pyLower s) clause_text
    | .many _ => false)

/-- `ValidationAgent._validate_against_clauses` (line 309): clause-level
validation notes keyed `clause_<id>`. -/
def validate_against_clauses (entities : Entities) (clauses : List SourceClause) :
    Dict (String × String) :=
  clauses.foldl (fun acc clause =>
    let text := pyLower clause.clause_text
    let key := "clause_" ++ clause.clause_id
    if contains_coverage_language text then
      if check_entity_in_clause entities text then
        dictInsert acc key ("supports_coverage", "Clause supports coverage for this case")
      else
        dictInsert acc key ("neutral", "Clause is relevant but not specifically supportive")
    else if contains_exclusion_language text then
      if check_entity_in_clause entities text then
        dictInsert acc key ("exclusion_risk", "Clause may exclude coverage for this case")
      else acc
    else if strIn "waiting" text || strIn "period" text then
      dictInsert acc key ("waiting_period_relevant", "Clause mentions waiting period requirements")
    else acc) []

/-- Stable sort by ascending priority, as Python `sorted(key=priority)`
(insertion sort from the right is stable). -/
def sortRulesByPriority (rules : List PolicyRule) : List PolicyRule :=
  rules.insertionSort (fun a b => a.priority ≤ b.priority)

/-- Per-rule warnings added for specific violated rules
(validate_claim lines 271-275). -/
def ruleWarning (rule_id : String) : List String :=
  if rule_id = "waiting_period" then ["Policy may not have met minimum waiting period"]
  else if rule_id = "excluded_procedures" then ["Procedure may be excluded from coverage"]
  else []

/-- The critical rule ids (validate_claim line 286). -/
def criticalRuleIds : List String := ["excluded_procedures", "age_limit"]

/-- Accumulator of the rule-evaluation loop of `validate_claim`:
`(violated_rules, satisfied_rules, warnings, validation_details)`. -/
def ValidateAcc : Type :=
  List String × List String × List String × Dict (String × String)

/-- One iteration of the rule-evaluation loop of `validate_claim`
(lines 251-275). -/
def validateStep (entities : Entities) (acc : ValidateAcc) (rule : PolicyRule) :
    ValidateAcc :=
  let (violated, satisfied, warnings, details) := acc
  let (is_satisfied, explanation) := rule.evaluate entities
  if is_satisfied then
    (violated, satisfied ++ [rule.name], warnings,
      dictInsert details rule.rule_id ("satisfied", explanation))
  else
    (violated ++ [rule.name], satisfied, warnings ++ ruleWarning rule.rule_id,
      dictInsert details rule.rule_id ("violated", explanation))

/-- The name-to-rule criticality test of `validate_claim` (lines 283-287):
look the violated rule name back up in the original rule list and test its
id against the critical set. -/
def isCriticalViolationName (rule_name : String) : Bool :=
  match defaultRules.find? (fun r => r.name = rule_name) with
  | some r => decide (r.rule_id ∈ criticalRuleIds)
  | none => false

/-- `ValidationAgent.validate_claim` (line 230) over the default rule set.
Rules are evaluated in ascending priority order (stable); violations of
rules whose id is in `criticalRuleIds` (found by looking the violated
name back up in the original rule list) force `is_valid = false`.  No
branch of the loop can raise, so the source's `except` arm (which would
return `is_valid = false` with `violated_rules = ["validation_error"]`)
is unreachable in this model. -/
def validate_claim (entities : Entities) (source_clauses : List SourceClause) :
    ValidationResult :=
  let sorted_rules := sortRulesByPriority defaultRules
  let step := sorted_rules.foldl (validateStep entities) (([], [], [], []) : ValidateAcc)
  let violated_rules := step.1
  let satisfied_rules := step.2.1
  let warnings := step.2.2.1
  let details := step.2.2.2
  let clause_details := validate_against_clauses entities source_clauses
  let all_details := clause_details.foldl (fun d (k, v) => dictInsert d k v) details
  let critical_violations := violated_rules.filter isCriticalViolationName
  { is_valid := critical_violations = []
    violated_rules := violated_rules
    satisfied_rules := satisfied_rules
    warnings := warnings
    validation_details := all_details }

/-! ### Decision agent (`src/agents/decision_agent.py`) -/

/-- `DecisionContext` (decision_agent.py line 18). -/
structure DecisionContext where
  entities : Entities
  source_clauses : List SourceClause
  validation_result : ValidationResult
  query_type : String
  urgency_level : String := "normal"

/-- One factor dict produced by the `_evaluate_*` helpers.  The source
returns heterogeneous dicts; the common keys consumed downstream
(`factor_name`, `status`, `confidence_impact`, `description`) are fields,
while the per-factor `details`/`supports_coverage` extras are returned
separately by the helpers that produce them. -/
structure DecisionFactor where
  factor_name : String
  status : String
  confidence_impact : ℚ
  description : String
deriving DecidableEq

/-- One entry of the risk-factor list of `_assess_risk`. -/
structure RiskFactor where
  type : String
  level : String
  description : String
deriving DecidableEq

/-- Risk assessment dict of `_assess_risk` (line 266).  The source's error
fallback builds `{'overall_risk': 'unknown', 'factors': []}` without a
`risk_score` key; this model sets `risk_score := 0` there. -/
structure RiskAssessment where
  overall_risk : String
  factors : List RiskFactor
  risk_score : ℚ
deriving DecidableEq

/-- `DecisionResult` (decision_agent.py line 27). -/
structure DecisionResult where
  decision : String
  confidence_score : ℚ
  amount : Option ℚ
  justification : String
  decision_factors : List DecisionFactor
  risk_assessment : RiskAssessment
deriving DecidableEq

/-- `DecisionRules._evaluate_validation_factor` (line 102). -/
def evaluate_validation_factor (vr : ValidationResult) : DecisionFactor :=
  if vr.is_valid then
    { factor_name := "validation_compliance", status := "positive"
      confidence_impact := 8/10
      description := "All validation rules satisfied" }
  else
    let critical_violations := vr.violated_rules.filter
      (fun rule => strIn "age" (pyLower rule) || strIn "excluded" (pyLower rule))
    if critical_violations ≠ [] then
      { factor_name := "validation_compliance", status := "negative"
        confidence_impact := 2/10
        description := toString vr.violated_rules.length ++ " validation rules violated" }
    else
      { factor_name := "validation_compliance", status := "cautionary"
        confidence_impact := 5/10
        description := toString vr.violated_rules.length ++ " validation rules violated" }

/-- Clause sentiment classification of `_analyze_clause_sentiment`
(line 197): positive/negative keyword counts, gated on some entity value
appearing verbatim in the clause text. -/
def analyze_clause_sentiment (clause : SourceClause) (entities : Entities) : String :=
  let text := pyLower clause.clause_text
  let positive_terms := ["covered", "eligible", "benefits", "included", "reimburse", "approved"]
  let negative_terms := ["excluded", "not covered", "limitation", "restricted", "denied"]
  let positive_score := (positive_terms.filter (fun t => strIn t text)).length
  let negative_score := (negative_terms.filter (fun t => strIn t text)).length
  let entity_mentioned := entities.any (fun (_, v) =>
    match v with
    | .one s => strIn (pyLower s) text
    | .many _ => false)
  if entity_mentioned then
    if positive_score > negative_score then "positive"
    else if negative_score > positive_score then "negative"
    else "neutral"
  else "neutral"

/-- `DecisionRules._evaluate_clause_support` (line 138); the boolean is
the dict's `supports_coverage` entry, consumed by the decision branch. -/
def evaluate_clause_support (clauses : List SourceClause) (entities : Entities) :
    DecisionFactor × Bool :=
  if clauses = [] then
    ({ factor_name := "clause_support", status := "negative"
       confidence_impact := 3/10
       description := "No relevant policy clauses found" }, false)
  else
    let sentiments := clauses.map (fun c => analyze_clause_sentiment c entities)
    let positive := (sentiments.filter (fun s => s = "positive")).length
    let negative := (sentiments.filter (fun s => s = "negative")).length
    if positive > negative then
      ({ factor_name := "clause_support", status := "positive"
         confidence_impact := min 1 (7/10 + positive * (1/10))
         description := toString positive ++ " clauses support coverage" }, true)
    else if negative > positive then
      ({ factor_name := "clause_support", status := "negative"
         confidence_impact := 3/10
         description := toString negative ++ " clauses indicate exclusion" }, false)
    else
      ({ factor_name := "clause_support", status := "neutral"
         confidence_impact := 5/10
         description := "Mixed or unclear clause support" }, false)

/-- `DecisionRules._evaluate_entity_completeness` (line 230): a key counts
as present only when its value is truthy. -/
def evaluate_entity_completeness (entities : Entities) : DecisionFactor :=
  let required_entities := ["age", "procedure"]
  let optional_entities := ["gender", "location", "policy_duration"]
  let present_required := (required_entities.filter (fun e =>
    match dictGet entities e with
    | some v => pyTruthy v
    | none => false)).length
  let present_optional := (optional_entities.filter (fun e =>
    match dictGet entities e with
    | some v => pyTruthy v
    | none => false)).length
  let completeness_score : ℚ :=
    (present_required / (2 : ℚ)) * (8/10) + (present_optional / (3 : ℚ)) * (2/10)
  let (status, confidence_impact) : String × ℚ :=
    if completeness_score ≥ 8/10 then ("complete", 9/10)
    else if completeness_score ≥ 6/10 then ("adequate", 7/10)
    else ("incomplete", 4/10)
  { factor_name := "entity_completeness", status := status
    confidence_impact := confidence_impact
    description := "Entity completeness: " ++ formatPercent1 completeness_score }

/-- Python `int(str(x).split()[0])` as used on the age entity by
`_assess_risk` and `_calculate_coverage_amount`: `IndexError` on an
all-whitespace value, `ValueError` on a non-integer first token. -/
def ageFirstTokenInt (v : EntityValue) : Except String ℤ :=
  match pySplitWs (pyStr v) with
  | [] => Except.error "list index out of range"
  | tok :: _ => pyIntParse tok

/-- `DecisionRules._assess_risk` (line 266).  The only fallible step is
the `int(...)` conversion of the age entity. -/
def assess_risk (ctx : DecisionContext) : Except String RiskAssessment := do
  let st0 : List RiskFactor × String := ([], "low")
  let st1 ← (match dictGet ctx.entities "age" with
    | none => pure st0
    | some v => do
      let age ← if pyTruthy v then ageFirstTokenInt v else pure 0
      if age > 70 then
        pure ([⟨"age_risk", "high", "Advanced age increases claim probability"⟩], "high")
      else if age < 25 then
        pure ([⟨"age_risk", "low", "Young age reduces claim probability"⟩], "low")
      else pure st0)
  let st2 : List RiskFactor × String :=
    match dictGet ctx.entities "procedure" with
    | none => st1
    | some v =>
      let procedure := pyLower (pyStr v)
      if ["surgery", "cardiac", "brain", "cancer", "transplant"].any
          (fun p => strIn p procedure) then
        (st1.1 ++ [⟨"procedure_risk", "high", "High-risk medical procedure"⟩], "high")
      else st1
  let st3 : List RiskFactor × String :=
    match dictGet ctx.entities "policy_duration" with
    | none => st2
    | some v =>
      let duration_str := pyLower (pyStr v)
      if strIn "month" duration_str then
        let digits := keepDigits duration_str
        let months : ℕ := digitsToNat (if digits = "" then ['0'] else digits.toList)
        if months < 6 then
          (st2.1 ++ [⟨"policy_duration_risk", "medium", "New policy with limited duration"⟩],
            if st2.2 = "low" then "medium" else st2.2)
        else st2
      else st2
  pure { overall_risk := st3.2, factors := st3.1
         risk_score :=
           (st3.1.filter (fun f => f.level = "high")).length * (3/10) +
           (st3.1.filter (fun f => f.level = "medium")).length * (2/10) }

/-- `DecisionRules._calculate_coverage_amount` (line 322): `none` when no
procedure entity exists; otherwise a base amount from the first matching
procedure keyword (dict order), scaled by the age factor. -/
def calculate_coverage_amount (ctx : DecisionContext) : Except String (Option ℚ) := do
  match dictGet ctx.entities "procedure" with
  | none => pure none
  | some pv =>
    let procedure := pyLower (pyStr pv)
    let procedure_amounts : List (String × ℚ) :=
      [("knee", 150000), ("hip", 200000), ("cardiac", 500000),
       ("surgery", 100000), ("dental", 25000), ("eye", 50000)]
    let base_amount : ℚ :=
      match procedure_amounts.find? (fun (p, _) => strIn p procedure) with
      | some (_, amt) => amt
      | none => 75000
    let scaled ← (match dictGet ctx.entities "age" with
      | none => pure base_amount
      | some av => do
        let age ← if pyTruthy av then ageFirstTokenInt av else pure 40
        if age > 60 then pure (base_amount * (12/10))
        else if age < 30 then pure (base_amount * (9/10))
        else pure base_amount)
    pure (some (pyRound2 scaled))

/-- Stable descending sort by relevance score, as Python
`sorted(key=relevance, reverse=True)`. -/
def sortClausesByRelevance (clauses : List SourceClause) : List SourceClause :=
  clauses.insertionSort (fun a b => b.relevance_score ≤ a.relevance_score)

/-- `DecisionRules._generate_justification` (line 356): the deterministic
templated narrative, joined with newlines. -/
def generate_justification (decision : String) (factors : List DecisionFactor)
    (validation : ValidationResult) (clauses : List SourceClause) : String :=
  let decision_summary :=
    if decision = "approved" then "The claim has been APPROVED based on policy analysis."
    else if decision = "rejected" then "The claim has been REJECTED due to policy violations."
    else if decision = "requires_review" then
      "The claim REQUIRES MANUAL REVIEW due to policy ambiguities."
    else if decision = "pending" then
      "The claim is PENDING additional information or clarification."
    else "Decision status unclear."
  let parts0 := [decision_summary, "\nKey Decision Factors:"]
  let factor_lines := factors.map (fun f =>
    if f.status = "positive" then "✓ " ++ f.description
    else if f.status = "negative" then "✗ " ++ f.description
    else "• " ++ f.description)
  let parts1 := parts0 ++ factor_lines
  let parts2 := parts1 ++
    (if validation.violated_rules ≠ [] then
      ["\nPolicy Violations: " ++ String.intercalate ", " validation.violated_rules]
     else []) ++
    (if validation.satisfied_rules ≠ [] then
      ["Satisfied Requirements: " ++
        String.intercalate ", " (validation.satisfied_rules.take 3)]
     else [])
  let parts3 := parts2 ++
    (if clauses ≠ [] then
      let relevant := (sortClausesByRelevance clauses).take 2
      "\nSupporting Policy Clauses:" ::
        (List.enumFrom 1 relevant).map (fun (i, c) =>
          toString i ++ ". " ++ c.document_name ++ " (Relevance: " ++
            formatFixed 2 c.relevance_score ++ "): " ++
            String.mk (c.clause_text.toList.take 100) ++ "...")
     else [])
  let parts4 := parts3 ++
    (if validation.warnings ≠ [] then
      ["\nWarnings: " ++ String.intercalate ", " validation.warnings]
     else [])
  String.intercalate "\n" parts4

/-- Decision branch of `evaluate_coverage_decision` (lines 69-82): the
first matching branch wins, paired with its confidence modifier. -/
def decisionBranch (vr : ValidationResult) (supports_coverage : Bool) : String × ℚ :=
  if vr.is_valid ∧ supports_coverage then ("approved", 1/10)
  else if ¬ vr.is_valid ∧ vr.violated_rules.length > 2 then ("rejected", 1/10)
  else if vr.warnings.length > 0 then ("requires_review", -(2/10))
  else ("pending", -(3/20))

/-- The three confidence factors in order (lines 47-60). -/
def decisionFactors (ctx : DecisionContext) : List DecisionFactor :=
  [evaluate_validation_factor ctx.validation_result,
   (evaluate_clause_support ctx.source_clauses ctx.entities).1,
   evaluate_entity_completeness ctx.entities]

/-- `overall_confidence` (line 67): mean of the three factor impacts. -/
def overallConfidence (ctx : DecisionContext) : ℚ :=
  ((evaluate_validation_factor ctx.validation_result).confidence_impact +
   (evaluate_clause_support ctx.source_clauses ctx.entities).1.confidence_impact +
   (evaluate_entity_completeness ctx.entities).confidence_impact) / 3

/-- `DecisionRules.evaluate_coverage_decision` (line 40): the full
decision computation, written as an explicit `Except.bind` chain over its
two fallible steps (`_assess_risk`, `_calculate_coverage_amount`);
`Except.error` models an uncaught Python exception escaping towards
`make_decision`. -/
def evaluate_coverage_decision (ctx : DecisionContext) : Except String DecisionResult :=
  Except.bind (assess_risk ctx) (fun risk_assessment =>
    Except.bind
      (if (decisionBranch ctx.validation_result
            (evaluate_clause_support ctx.source_clauses ctx.entities).2).1 = "approved"
       then calculate_coverage_amount ctx else Except.ok none)
      (fun amount =>
        Except.ok
          { decision := (decisionBranch ctx.validation_result
              (evaluate_clause_support ctx.source_clauses ctx.entities).2).1
            confidence_score := max 0 (min 1 (overallConfidence ctx +
              (decisionBranch ctx.validation_result
                (evaluate_clause_support ctx.source_clauses ctx.entities).2).2))
            amount := amount
            justification := generate_justification
              (decisionBranch ctx.validation_result
                (evaluate_clause_support ctx.source_clauses ctx.entities).2).1
              (decisionFactors ctx) ctx.validation_result ctx.source_clauses
            decision_factors := decisionFactors ctx
            risk_assessment := risk_assessment }))

/-- `DecisionAgent.make_decision` (line 415): the terminal backstop.  Any
error raised inside `evaluate_coverage_decision` is caught and converted
to the safe default rejection.  (The audit-history side effect of
`_record_decision` is stateful logging and is not modelled.) -/
def make_decision (entities : Entities) (source_clauses : List SourceClause)
    (validation_result : ValidationResult) (query_type : String := "coverage") :
    DecisionResult :=
  match evaluate_coverage_decision
      ⟨entities, source_clauses, validation_result, query_type, "normal"⟩ with
  | .ok r => r
  | .error e =>
    { decision := "rejected"
      confidence_score := 0
      amount := none
      justification := "Error in decision processing: " ++ e
      decision_factors := []
      risk_assessment := { overall_risk := "unknown", factors := [], risk_score := 0 } }

/-! ### Semantic chunker (`src/agents/semantic_chunker.py`) -/

/-- `ChunkingConfig` (semantic_chunker.py line 17). -/
structure ChunkingConfig where
  max_chunk_size : ℕ := 512
  min_chunk_size : ℕ := 50
  overlap_size : ℕ := 50
  semantic_threshold : ℚ := 7/10
  preserve_sentences : Bool := true
  preserve_paragraphs : Bool := true
deriving DecidableEq

/-- `DocumentChunk` (schemas.py) with the metadata entries written by
`_create_chunk` flattened into fields (the embedding vectors are attached
only in the retrieval-side store model). -/
structure DocumentChunk where
  chunk_id : String
  content : String
  document_source : String
  paragraph_index : ℕ
  chunk_index : ℕ
  word_count : ℕ
  character_count : ℕ
  key_phrases : List String
  chunk_type : String
deriving DecidableEq

/-- Replace each maximal whitespace run by a single space:
`re.sub(r'\s+', ' ', content)` (preprocess step 1). -/
def collapseWs : List Char → List Char
  | [] => []
  | c :: rest =>
    if pyIsSpace c then ' ' :: collapseWs (rest.dropWhile pyIsSpace)
    else c :: collapseWs rest
termination_by l => l.length
decreasing_by
  · have := dropWhile_length_le pyIsSpace rest
    simp only [List.length_cons]; omega
  · simp only [List.length_cons]; omega

unseal collapseWs

/-- Index just past the last newline of a whitespace run, if any
(the extent consumed by a greedy `\s*` that must end with `\n`). -/
def lastNlStop (run : List Char) : Option ℕ :=
  match (run.reverse.findIdx? (fun c => c = '\n')) with
  | none => none
  | some revIdx => some (run.length - revIdx)

/-- Step applied at each `\n` of `re.sub(r'\n\s*\n', '\n\n', s)`
(preprocess step 2): if the following whitespace run still contains a
newline the whole greedy match is replaced by two newlines. -/
def subBlankRuns : List Char → List Char
  | [] => []
  | c :: rest =>
    if c = '\n' then
      let run := rest.takeWhile pyIsSpace
      match lastNlStop run with
      | some stop => '\n' :: '\n' :: subBlankRuns (rest.drop stop)
      | none => c :: subBlankRuns rest
    else c :: subBlankRuns rest
termination_by l => l.length
decreasing_by
  · have := List.length_drop stop rest
    simp only [List.length_cons]; omega
  · simp only [List.length_cons]; omega
  · simp only [List.length_cons]; omega

unseal subBlankRuns

/-- Characters kept by `re.sub(r'[^\w\s\.\,\!\?\:\;\-\(\)\[\]\n]', '', s)`
(preprocess step 3). -/
def keepableChar (c : Char) : Bool :=
  pyIsWordChar c || pyIsSpace c ||
    c ∈ ['.', ',', '!', '?', ':', ';', '-', '(', ')', '[', ']', '\n']

/-- `SemanticChunkerAgent._preprocess_content` (line 75). -/
def preprocess_content (content : String) : String :=
  let step1 := collapseWs content.toList
  let step2 := subBlankRuns step1
  let step3 := step2.filter keepableChar
  pyStrip (String.mk step3)

/-- Split on `re.split(r'\n\s*\n', content)`: paragraph boundaries at
blank-line runs (same greedy match as `subBlankRuns`). -/
def splitParagraphRuns : List Char → List (List Char)
  | [] => [[]]
  | c :: rest =>
    if c = '\n' then
      let run := rest.takeWhile pyIsSpace
      match lastNlStop run with
      | some stop => [] :: splitParagraphRuns (rest.drop stop)
      | none => (splitParagraphRuns rest).modifyHead (c :: ·)
    else (splitParagraphRuns rest).modifyHead (c :: ·)
termination_by l => l.length
decreasing_by
  · have := List.length_drop stop rest
    simp only [List.length_cons]; omega
  · simp only [List.length_cons]; omega
  · simp only [List.length_cons]; omega

unseal splitParagraphRuns

/-- `SemanticChunkerAgent._extract_paragraphs` (line 88). -/
def extract_paragraphs (cfg : ChunkingConfig) (content : String) : List String :=
  if cfg.preserve_paragraphs then
    ((splitParagraphRuns content.toList).map (fun p => pyStrip (String.mk p))).filter
      (fun p => p ≠ "")
  else [content]

/-- Sentence-terminal characters of `re.compile(r'[.!?]+')`. -/
def isSentEnd (c : Char) : Bool := c = '.' || c = '!' || c = '?'

/-- `re.split(r'[.!?]+', text)`: split at maximal runs of terminal
punctuation. -/
def splitSentRuns : List Char → List (List Char)
  | [] => [[]]
  | c :: rest =>
    if isSentEnd c then
      [] :: splitSentRuns (rest.dropWhile isSentEnd)
    else (splitSentRuns rest).modifyHead (c :: ·)
termination_by l => l.length
decreasing_by
  · have := dropWhile_length_le isSentEnd rest
    simp only [List.length_cons]; omega
  · simp only [List.length_cons]; omega

unseal splitSentRuns

/-- Word groups of twenty used when sentence preservation is off. -/
def wordGroups (words : List String) : List String :=
  (List.range ((words.length + 19) / 20)).map (fun g =>
    String.intercalate " " ((words.drop (20 * g)).take 20))

/-- `SemanticChunkerAgent._extract_sentences` (line 144): fragments of at
most ten characters (after stripping) are dropped. -/
def extract_sentences (cfg : ChunkingConfig) (text : String) : List String :=
  if cfg.preserve_sentences then
    (((splitSentRuns text.toList).map (fun s => pyStrip (String.mk s))).filter
      (fun s => s.length > 10))
  else wordGroups (pySplitWs text)

/-- Stop words of `_extract_key_phrases` (line 210). -/
def chunkerStopWords : List String :=
  ["the", "a", "an", "and", "or", "but", "in", "on", "at", "to", "for",
   "of", "with", "by", "is", "are", "was", "were", "be", "been", "being",
   "have", "has", "had", "do", "does", "did", "will", "would", "could",
   "should", "may", "might", "must", "can", "this", "that", "these", "those"]

/-- `SemanticChunkerAgent._extract_key_phrases` (line 204): frequent
bigrams/trigrams over stop-word-filtered words, most frequent first
(stable), top five. -/
def extract_key_phrases (content : String) : List String :=
  let words := pySplitWs (pyLower content)
  let key_words := words.filter (fun w => w ∉ chunkerStopWords ∧ w.length > 3)
  let bigrams := ((List.range (key_words.length - 1)).map (fun i =>
    String.intercalate " " ((key_words.drop i).take 2))).filter (fun p => p.length > 6)
  let trigrams := ((List.range (key_words.length - 2)).map (fun i =>
    String.intercalate " " ((key_words.drop i).take 3))).filter (fun p => p.length > 10)
  let phrase_freq : Dict ℕ := (bigrams ++ trigrams).foldl
    (fun acc p => dictInsert acc p (dictGetD acc p 0 + 1)) []
  let sorted := phrase_freq.insertionSort (fun a b => b.2 ≤ a.2)
  (sorted.take 5).map Prod.fst

/-- `SemanticChunkerAgent._determine_chunk_type` (line 239). -/
def determine_chunk_type (content : String) : String :=
  let content_lower := pyLower content
  if ["policy", "coverage", "premium", "deductible"].any (fun w => strIn w content_lower) then
    "policy_clause"
  else if ["waiting", "period", "eligible", "claim"].any (fun w => strIn w content_lower) then
    "eligibility_rule"
  else if ["amount", "payment", "reimbursement", "$"].any (fun w => strIn w content_lower) then
    "financial_clause"
  else if ["exclusion", "not covered", "limitation"].any (fun w => strIn w content_lower) then
    "exclusion_clause"
  else if content.toList.count ':' > 2 ∨ content.toList.count '|' > 2 then
    "structured_data"
  else "general_content"

/-- `SemanticChunkerAgent._create_chunk` (line 166). -/
def create_chunk (content source : String) (paragraph_index chunk_index : ℕ) :
    DocumentChunk :=
  { chunk_id := source ++ "_p" ++ toString paragraph_index ++ "_c" ++ toString chunk_index
    content := content
    document_source := source
    paragraph_index := paragraph_index
    chunk_index := chunk_index
    word_count := (pySplitWs content).length
    character_count := content.length
    key_phrases := extract_key_phrases content
    chunk_type := determine_chunk_type content }

/-- `SemanticChunkerAgent._add_overlap` (line 189): seed the next chunk
with the trailing `overlap_size` words of the previous chunk. -/
def add_overlap (cfg : ChunkingConfig) (existing_chunks : List DocumentChunk)
    (new_sentence : String) : String :=
  match existing_chunks.getLast? with
  | none => new_sentence
  | some prev =>
    if cfg.overlap_size = 0 then new_sentence
    else
      let words := pySplitWs prev.content
      if words.length > cfg.overlap_size then
        String.intercalate " " (words.drop (words.length - cfg.overlap_size)) ++
          " " ++ new_sentence
      else prev.content ++ " " ++ new_sentence

/-- Sentence-accumulation loop of `_chunk_paragraph` (lines 106-131): the
state is the pending `current_chunk` text and the chunks built so far.
A closed accumulation shorter than `min_chunk_size` is discarded (the
source appends only when the length check passes). -/
def chunkLoop (cfg : ChunkingConfig) (source : String) (paragraph_index : ℕ) :
    List String → String → List DocumentChunk → List DocumentChunk
  | [], current, chunks =>
    if current ≠ "" ∧ current.length ≥ cfg.min_chunk_size then
      chunks ++ [create_chunk (pyStrip current) source paragraph_index chunks.length]
    else chunks
  | s :: rest, current, chunks =>
    let potential := if current ≠ "" then current ++ " " ++ s else s
    if potential.length > cfg.max_chunk_size ∧ current ≠ "" then
      let chunks' :=
        if current.length ≥ cfg.min_chunk_size then
          chunks ++ [create_chunk (pyStrip current) source paragraph_index chunks.length]
        else chunks
      chunkLoop cfg source paragraph_index rest (add_overlap cfg chunks' s) chunks'
    else chunkLoop cfg source paragraph_index rest potential chunks

/-- `SemanticChunkerAgent._chunk_paragraph` (line 96).  (The local
`sentence_indices` bookkeeping of the source is dead and not modelled.) -/
def chunk_paragraph (cfg : ChunkingConfig) (paragraph source : String)
    (paragraph_index : ℕ) : List DocumentChunk :=
  if paragraph.length ≤ cfg.max_chunk_size then
    [create_chunk paragraph source paragraph_index 0]
  else
    chunkLoop cfg source paragraph_index (extract_sentences cfg paragraph) "" []

/-- `SemanticChunkerAgent._optimize_chunks` (line 257): merge a chunk
below `min_chunk_size` into its predecessor when the combined length stays
below `max_chunk_size`; the merged chunk keeps the predecessor's identity
with updated content and counts. -/
def optimizeStep (cfg : ChunkingConfig) (optimized : List DocumentChunk)
    (chunk : DocumentChunk) : List DocumentChunk :=
  if chunk.content.length < cfg.min_chunk_size then
    match optimized.getLast? with
    | some prev =>
      if prev.content.length + chunk.content.length < cfg.max_chunk_size then
        let merged_content := prev.content ++ " " ++ chunk.content
        optimized.dropLast ++
          [{ prev with
              content := merged_content
              word_count := (pySplitWs merged_content).length
              character_count := merged_content.length }]
      else optimized ++ [chunk]
    | none => optimized ++ [chunk]
  else optimized ++ [chunk]

/-- Body of `_optimize_chunks`: fold the merge step over the chunks. -/
def optimize_chunks (cfg : ChunkingConfig) (chunks : List DocumentChunk) :
    List DocumentChunk :=
  chunks.foldl (optimizeStep cfg) []

/-- `SemanticChunkerAgent.create_chunks` (line 39): preprocess, split into
paragraphs, chunk each paragraph, then run the merge post-pass. -/
def create_chunks (cfg : ChunkingConfig) (document_content document_source : String) :
    List DocumentChunk :=
  let cleaned := preprocess_content document_content
  let paragraphs := extract_paragraphs cfg cleaned
  let chunks := (paragraphs.enum).flatMap
    (fun (i, p) => chunk_paragraph cfg p document_source i)
  optimize_chunks cfg chunks

/-! ### Retrieval agent (`src/agents/retrieval_agent.py`)

Similarity scores involve square roots of sums of squares, so this module
idealises Python floats as real numbers.  Query embeddings are inputs here:
the embedding capability (sentence-transformers, or the hash-based fallback
whose `hash()` seed is process-randomised) is an external collaborator per
the spec, so the store holds arbitrary dense/sparse vectors and the query
arrives already embedded. -/

/-- `RetrievalConfig` (retrieval_agent.py line 18): a plain dataclass.
Constructing it runs no validation whatsoever — any weights are accepted
(this is the subject of the weight-validation claim). -/
structure RetrievalConfig where
  dense_weight : ℝ := 0.7
  sparse_weight : ℝ := 0.3
  max_results : ℕ := 10
  similarity_threshold : ℝ := 0.6
  rerank_results : Bool := true

/-- One entry of the `VectorStore`: the dense and sparse vectors stored by
`add_document` keyed by the chunk id, along with the chunk itself
(`document_source`, `content`, and the `paragraph_index` metadata read by
`retrieve_relevant_documents`). -/
structure StoreEntry where
  doc_id : String
  dense : List ℝ
  sparse : List (String × ℝ)
  document_source : String
  content : String
  paragraph_index : Option ℤ

/-- The in-memory `VectorStore` contents in insertion order (Python dicts
iterate in insertion order). -/
def VectorStore : Type := List StoreEntry

/-- Sum of squares of a list (the quantity under `np.linalg.norm`). -/
def sumSq (v : List ℝ) : ℝ :=
  (v.map (fun x => x ^ 2)).sum

/-- `np.dot` on equal-length vectors (zip truncates at the shorter). -/
def dotList (v w : List ℝ) : ℝ :=
  (List.zipWith (· * ·) v w).sum

/-- `VectorStore._cosine_similarity` (line 146). -/
noncomputable def cosine_similarity (v w : List ℝ) : ℝ :=
  let norm1 := Real.sqrt (sumSq v)
  let norm2 := Real.sqrt (sumSq w)
  if norm1 = 0 ∨ norm2 = 0 then 0 else dotList v w / (norm1 * norm2)

/-- Dot product of sparse vectors over shared terms (first lookup wins,
like a dict). -/
def sparseDot (v w : List (String × ℝ)) : ℝ :=
  (v.map (fun (k, x) =>
    match dictGet w k with
    | some y => x * y
    | none => 0)).sum

/-- Sum of squares of the values of a sparse vector. -/
def sparseSumSq (v : List (String × ℝ)) : ℝ :=
  (v.map (fun kv => kv.2 ^ 2)).sum

/-- `VectorStore._sparse_similarity` (line 160). -/
noncomputable def sparse_similarity (v w : List (String × ℝ)) : ℝ :=
  if v = [] ∨ w = [] then 0
  else
    let norm1 := Real.sqrt (sparseSumSq v)
    let norm2 := Real.sqrt (sparseSumSq w)
    if norm1 = 0 ∨ norm2 = 0 then 0 else sparseDot v w / (norm1 * norm2)

/-- Stable descending sort by score, as Python
`list.sort(key=score, reverse=True)`. -/
noncomputable def sortByScoreDesc (l : List (StoreEntry × ℝ)) : List (StoreEntry × ℝ) :=
  l.insertionSort (fun a b => b.2 ≤ a.2)

/-- `VectorStore.similarity_search` (line 116): hybrid score per stored
chunk, threshold filter, descending sort, truncation to `max_results`. -/
noncomputable def similarity_search (store : VectorStore)
    (query_dense : List ℝ) (query_sparse : List (String × ℝ))
    (config : RetrievalConfig) : List (StoreEntry × ℝ) :=
  let similarities := (store.map (fun e =>
    (e, config.dense_weight * cosine_similarity query_dense e.dense +
        config.sparse_weight * sparse_similarity query_sparse e.sparse))).filter
    (fun p => config.similarity_threshold ≤ p.2)
  (sortByScoreDesc similarities).take config.max_results

/-- Retrieval-side `SourceClause` with a real-valued relevance score. -/
structure RSourceClause where
  document_name : String
  clause_id : String
  clause_text : String
  relevance_score : ℝ
  page_number : Option ℤ

/-- Entity weights of `RetrievalAgent._rerank_results` (line 337). -/
def entityWeight (entity_type : String) : ℝ :=
  if entity_type = "procedure" then 1.5
  else if entity_type = "age" then 1.2
  else if entity_type = "location" then 1.3
  else if entity_type = "policy_duration" then 1.4
  else 1.0

/-- Re-rank bonus of one clause: `0.1 · weight` per single-string entity
value found verbatim (lowercased) in the clause text. -/
def rerankBonus (entities : Entities) (clause_text_lower : String) : ℝ :=
  (entities.map (fun (entity_type, v) =>
    match v with
    | .one s =>
      if strIn (pyLower s) clause_text_lower then entityWeight entity_type * 0.1 else 0
    | .many _ => 0)).sum

/-- `RetrievalAgent._rerank_results` (line 333): boost each clause's score
(clamped to 1.0), then re-sort descending. -/
noncomputable def rerank_results (entities : Entities) (results : List RSourceClause) :
    List RSourceClause :=
  let boosted := results.map (fun c =>
    let score := min 1 (c.relevance_score + rerankBonus entities (pyLower c.clause_text))
    { c with relevance_score := score })
  boosted.insertionSort (fun a b => b.relevance_score ≤ a.relevance_score)

/-- `RetrievalAgent.retrieve_relevant_documents` (line 287) downstream of
query parsing/embedding: similarity search, conversion to source clauses,
optional re-rank pass. -/
noncomputable def retrieve_relevant_documents (store : VectorStore)
    (query_dense : List ℝ) (query_sparse : List (String × ℝ))
    (entities : Entities) (config : RetrievalConfig) : List RSourceClause :=
  let similar := similarity_search store query_dense query_sparse config
  let source_clauses := similar.map (fun (e, score) =>
    { document_name := e.document_source
      clause_id := e.doc_id
      clause_text := e.content
      relevance_score := score
      page_number := e.paragraph_index : RSourceClause })
  if config.rerank_results then rerank_results entities source_clauses
  else source_clauses

/-! ### Configuration validation (`src/config.py`) -/

/-- The numeric fields of the global `Settings` read by the range checks
of `validate_configuration`. -/
structure SettingsModel where
  dense_weight : ℚ
  sparse_weight : ℚ
  max_chunk_size : ℤ
  min_chunk_size : ℤ
  similarity_threshold : ℚ
  default_age_min : ℤ
  default_age_max : ℤ
deriving DecidableEq

/-- Numeric-range portion of `validate_configuration` (config.py lines
73-86); the filesystem checks of lines 64-71 are environment side effects
and are not modelled.  `main.py` exits at startup when this list is
nonempty — but it checks only the global `Settings`, never a
`RetrievalConfig` built directly. -/
def validate_configuration_numeric (s : SettingsModel) : List String :=
  (if s.dense_weight + s.sparse_weight ≠ 1 then
    ["Dense weight + Sparse weight must equal 1.0"] else []) ++
  (if s.max_chunk_size ≤ s.min_chunk_size then
    ["Max chunk size must be greater than min chunk size"] else []) ++
  (if s.similarity_threshold < 0 ∨ s.similarity_threshold > 1 then
    ["Similarity threshold must be between 0 and 1"] else []) ++
  (if s.default_age_min ≥ s.default_age_max then
    ["Default minimum age must be less than maximum age"] else [])

/-! ### Query parser (`QueryParser` in `src/agents/retrieval_agent.py`)

Each regular-expression family of `entity_patterns` (line 184) is embedded
as a hand-translated scanner with the same `re.finditer(..., IGNORECASE)`
semantics: leftmost non-overlapping matches, alternatives tried in source
order, greedy optional pieces with backtracking where the pattern needs
it.  Every matcher returns the captured group text together with the
number of characters the whole match consumed. -/

/-- First defined alternative. -/
def firstSome {α : Type} (l : List (Option α)) : Option α :=
  (l.filterMap id).head?

/-- Case-insensitive literal match: drop `pat` from the front of `l`. -/
def ciDropChars : List Char → List Char → Option (List Char)
  | [], l => some l
  | _ :: _, [] => none
  | p :: ps, c :: cs => if p.toLower = c.toLower then ciDropChars ps cs else none

/-- Case-insensitive literal match for a string pattern. -/
def ciDropLit (lit : String) (l : List Char) : Option (List Char) :=
  ciDropChars lit.toList l

/-- Word boundary `\b` before a word character, given the previous char. -/
def boundaryOk (prev : Option Char) : Bool :=
  match prev with
  | none => true
  | some c => ¬ pyIsWordChar c

/-- Word boundary `\b` after a word character: next char absent or not a
word character. -/
def afterBoundary (l : List Char) : Bool :=
  match l with
  | [] => true
  | c :: _ => ¬ pyIsWordChar c

/-- Greedy optional separator `[-\s]?`: remainders to try, longest match
first. -/
def sepOptions (l : List Char) : List (List Char) :=
  match l with
  | c :: rest => if c = '-' || pyIsSpace c then [rest, l] else [l]
  | [] => [[]]

/-- `[-\s]?` followed by a case-insensitive literal (greedy separator,
backtracking to no separator). -/
def trySepLit (endLit : String) (r : List Char) : Option (List Char) :=
  firstSome ((sepOptions r).map (ciDropLit endLit))

/-- `[-\s]?(?:unit-alternatives)[-\s]?endLit` with Python backtracking
order: separator greedy-first, unit alternatives in source order. -/
def tryUnitsEnd (units : List String) (endLit : String) (r0 : List Char) :
    Option (List Char) :=
  firstSome ((sepOptions r0).map (fun r1 =>
    firstSome (units.map (fun u => (ciDropLit u r1).bind (trySepLit endLit)))))

/-- Maximal digit run (greedy `\d+`). -/
def takeDigitRun (l : List Char) : List Char × List Char :=
  (l.takeWhile Char.isDigit, l.dropWhile Char.isDigit)

/-- Age pattern
`\b(\d+)[-\s]?(?:year|yr|y)[-\s]?old|\b(\d+)[yY]\b|\b(\d+)\s*male|\b(\d+)\s*female`:
four alternatives tried in order at each position, each capturing the
digit run. -/
def ageMatch (prev : Option Char) (l : List Char) : Option (String × ℕ) :=
  if boundaryOk prev then
    let (ds, r0) := takeDigitRun l
    if ds = [] then none
    else
      let alt1 := (tryUnitsEnd ["year", "yr", "y"] "old" r0).map
        (fun r4 => (String.mk ds, l.length - r4.length))
      let alt2 := match r0 with
        | c :: r1 =>
          if (c = 'y' ∨ c = 'Y') ∧ afterBoundary r1 then
            some (String.mk ds, ds.length + 1)
          else none
        | [] => none
      let alt3 := (ciDropLit "male" (r0.dropWhile pyIsSpace)).map
        (fun r => (String.mk ds, l.length - r.length))
      let alt4 := (ciDropLit "female" (r0.dropWhile pyIsSpace)).map
        (fun r => (String.mk ds, l.length - r.length))
      firstSome [alt1, alt2, alt3, alt4]
  else none

/-- Keyword alternation `\b(w1|w2|...)\b` (gender and procedure
patterns): the captured group is the original text slice. -/
def keywordMatch (lits : List String) (prev : Option Char) (l : List Char) :
    Option (String × ℕ) :=
  if boundaryOk prev then
    firstSome (lits.map (fun lit =>
      match ciDropLit lit l with
      | some r =>
        if afterBoundary r then some (String.mk (l.take lit.length), lit.length)
        else none
      | none => none))
  else none

/-- Policy-duration pattern
`\b(\d+)[-\s]?(?:month|yr|year)[-\s]?old\s+(?:policy|insurance)`. -/
def durationMatch (prev : Option Char) (l : List Char) : Option (String × ℕ) :=
  if boundaryOk prev then
    let (ds, r0) := takeDigitRun l
    if ds = [] then none
    else
      (tryUnitsEnd ["month", "yr", "year"] "old" r0).bind (fun r4 =>
        let r5 := r4.dropWhile pyIsSpace
        if r5.length = r4.length then none
        else
          (firstSome [ciDropLit "policy" r5, ciDropLit "insurance" r5]).map
            (fun r6 => (String.mk ds, l.length - r6.length)))
  else none

/-- Zero or more `,\d{3}` groups (greedy), returning the consumed chars
and the rest. -/
def commaGroups : List Char → List Char × List Char
  | ',' :: d1 :: d2 :: d3 :: rest =>
    if d1.isDigit ∧ d2.isDigit ∧ d3.isDigit then
      let (took, r) := commaGroups rest
      (',' :: d1 :: d2 :: d3 :: took, r)
    else ([], ',' :: d1 :: d2 :: d3 :: rest)
  | l => ([], l)

/-- Amount pattern
`\$?\s*(\d+(?:,\d{3})*(?:\.\d{2})?)\s*(?:dollars?|USD|\$)?` (no word
boundaries: any digit run qualifies). -/
def amountMatch (_prev : Option Char) (l : List Char) : Option (String × ℕ) :=
  let r0 := match l with
    | '$' :: r => r
    | _ => l
  let r1 := r0.dropWhile pyIsSpace
  let (ds, r2) := takeDigitRun r1
  if ds = [] then none
  else
    let (cg, r3) := commaGroups r2
    let (dec, r4) := match r3 with
      | '.' :: d1 :: d2 :: rest =>
        if d1.isDigit ∧ d2.isDigit then (['.', d1, d2], rest)
        else (([] : List Char), r3)
      | _ => ([], r3)
    let capture := String.mk (ds ++ cg ++ dec)
    let r5 := r4.dropWhile pyIsSpace
    let r6 := match ciDropLit "dollar" r5 with
      | some r => match ciDropLit "s" r with
        | some r' => r'
        | none => r
      | none => match ciDropLit "usd" r5 with
        | some r => r
        | none => match r5 with
          | '$' :: r => r
          | _ => r5
    some (capture, l.length - r6.length)

/-- Maximal letter run (both `[A-Z]` and `[a-z]+` match any letter under
`re.IGNORECASE`). -/
def letterRun (l : List Char) : List Char × List Char :=
  (l.takeWhile Char.isAlpha, l.dropWhile Char.isAlpha)

/-- Further `\s+[A-Z][a-z]+` word segments of the location pattern:
checkpoints `(consumed-so-far, rest)` after each additional word. -/
def wordSegs : ℕ → List Char → List Char → List (List Char × List Char)
  | 0, _, _ => []
  | fuel + 1, consumed, rest =>
    let ws := rest.takeWhile pyIsSpace
    if ws = [] then []
    else
      let (w, r') := letterRun (rest.drop ws.length)
      if w.length ≥ 2 then
        (consumed ++ ws ++ w, r') :: wordSegs fuel (consumed ++ ws ++ w) r'
      else []

/-- Lookahead `(?=\s*(?:city|state|hospital|clinic)|\s*,)` of the
location pattern. -/
def locationLookahead (rest : List Char) : Bool :=
  let t := rest.dropWhile pyIsSpace
  (["city", "state", "hospital", "clinic"].any (fun w => (ciDropLit w t).isSome)) ||
    (match t with
     | ',' :: _ => true
     | _ => false)

/-- Location pattern
`\b([A-Z][a-z]+(?:\s+[A-Z][a-z]+)*)\b(?=\s*(?:city|state|hospital|clinic)|\s*,)`
under `IGNORECASE`: a greedy multi-word run, backtracking word by word
until the trailing word boundary and the lookahead both hold.  The
captured group is the word run itself; the lookahead consumes nothing. -/
def locationMatch (prev : Option Char) (l : List Char) : Option (String × ℕ) :=
  if boundaryOk prev then
    let (w0, r0) := letterRun l
    if w0.length ≥ 2 then
      let checkpoints := (w0, r0) :: wordSegs l.length w0 r0
      let ok := checkpoints.reverse.find? (fun (_, rest) =>
        afterBoundary rest ∧ locationLookahead rest)
      ok.map (fun (consumed, _) => (String.mk consumed, consumed.length))
    else none
  else none

/-- Driver for `re.finditer`: scan left to right, emitting each match's
captured group and resuming after the matched span. -/
def scanIterAux (m : Option Char → List Char → Option (String × ℕ)) :
    ℕ → Option Char → List Char → List String
  | 0, _, _ => []
  | _ + 1, _, [] => []
  | fuel + 1, prev, c :: rest =>
    match m prev (c :: rest) with
    | some (v, k) =>
      let k' := max k 1
      v :: scanIterAux m fuel (((c :: rest).take k').getLast?) ((c :: rest).drop k')
    | none => scanIterAux m fuel (some c) rest

/-- All captured values of a pattern over a query string. -/
def scanIter (m : Option Char → List Char → Option (String × ℕ)) (s : String) :
    List String :=
  scanIterAux m (s.length + 1) none s.toList

/-- The `entity_patterns` table (retrieval_agent.py line 184), in source
order, as capture-list functions. -/
def entityPatternTable : List (String × (String → List String)) :=
  [ ("age", scanIter ageMatch),
    ("gender", scanIter (keywordMatch ["male", "female", "man", "woman", "m", "f"])),
    ("procedure", scanIter (keywordMatch
      ["surgery", "operation", "treatment", "procedure", "knee", "hip",
       "heart", "brain", "cancer", "diabetes"])),
    ("location", scanIter locationMatch),
    ("policy_duration", scanIter durationMatch),
    ("amount", scanIter amountMatch) ]

/-- Entity-extraction portion of `QueryParser.parse_query` (line 194):
for each field, collect all matches (stripped); a single match is stored
as the bare value, two or more matches are stored as the full list.
(The `context`/`structured_query` parts of the returned dict are not
needed by any claim and are not modelled.)  A single match is stored as
the bare value (`values[0] if len(values) == 1 else values`); two or more
matches are stored as the full list. -/
def insertEntityValues (acc : Entities) (name : String) (values : List String) :
    Entities :=
  match values with
  | [] => acc
  | [v] => dictInsert acc name (.one v)
  | vs => dictInsert acc name (.many vs)

/-- Assembly of the entity dict over the pattern table (the loop body of
`parse_query`). -/
def parse_query_entities (query : String) : Entities :=
  entityPatternTable.foldl (fun acc (name, f) =>
    insertEntityValues acc name ((f query).map pyStrip)) []

/-! ### Mapping agent (`src/agents/mapping_agent.py`)

UUIDs (`uuid.uuid4()`) are random: they enter the model as an explicit
supply of identifiers, with theorems assuming the freshness/uniqueness
that UUID generation provides.  Wall-clock timestamps are omitted. -/

/-- `TraceabilityLink` (mapping_agent.py line 20), minus the timestamp. -/
structure TraceabilityLink where
  link_id : String
  decision_id : String
  source_clause_id : String
  relationship_type : String
  strength : ℚ
  explanation : String
deriving DecidableEq

/-- Clause data stored by `DocumentIndex.add_clause` (line 52): the
metadata sub-dict holds word/char counts (its `indexed_at` wall-clock
entry is omitted). -/
structure ClauseData where
  document_name : String
  clause_text : String
  relevance_score : ℚ
  page_number : Option ℤ
  word_count : ℕ
  char_count : ℕ
deriving DecidableEq

/-- `DecisionTrace` (line 31), with the `metadata` dict's `decision_id`
and `amount` entries as fields (its risk/timestamp entries are not read
by any audit query modelled here). -/
structure DecisionTrace where
  trace_id : String
  query : String
  decision : String
  entities : Entities
  confidence_score : ℚ
  source_links : List TraceabilityLink
  decision_path : List String
  metadata_decision_id : String
  metadata_amount : Option ℚ
deriving DecidableEq

/-- State of `MappingAgent` + its `DocumentIndex` (lines 44-99): all maps
are insertion-ordered dicts.  The audit log is kept as its event-type
list. -/
structure MappingState where
  clause_index : Dict ClauseData
  document_index : Dict (List String)
  decision_index : Dict (List String)
  decision_traces : Dict DecisionTrace
  traceability_links : Dict TraceabilityLink
  audit_log : List String
deriving DecidableEq

/-- The empty initial `MappingAgent` state. -/
def MappingState.initial : MappingState := ⟨[], [], [], [], [], []⟩

/-- The `clause_data` record built by `DocumentIndex.add_clause`. -/
def clauseDataOf (clause : SourceClause) : ClauseData :=
  { document_name := clause.document_name
    clause_text := clause.clause_text
    relevance_score := clause.relevance_score
    page_number := clause.page_number
    word_count := (pySplitWs clause.clause_text).length
    char_count := clause.clause_text.length }

/-- `DocumentIndex.add_clause` (line 52). -/
def add_clause (st : MappingState) (clause : SourceClause) : MappingState :=
  let doc_clauses := dictGetD st.document_index clause.document_name []
  { st with
      clause_index := dictInsert st.clause_index clause.clause_id (clauseDataOf clause)
      document_index :=
        if clause.clause_id ∈ doc_clauses then st.document_index
        else dictInsert st.document_index clause.document_name
          (doc_clauses ++ [clause.clause_id]) }

/-- Keyword families of `_analyze_clause_relationship` (line 197). -/
def supportsKeywords : List String :=
  ["covered", "eligible", "benefits", "approved", "included"]

/-- Contradiction keywords of `_analyze_clause_relationship`. -/
def contradictsKeywords : List String :=
  ["excluded", "not covered", "denied", "prohibited", "limitation"]

/-- Validation keywords of `_analyze_clause_relationship`. -/
def validatesKeywords : List String :=
  ["must", "required", "shall", "conditions", "criteria"]

/-- `MappingAgent._analyze_clause_relationship` (line 197): relationship
type, strength and explanation from keyword counts, with outcome-dependent
roles. -/
def analyze_clause_relationship (clause : SourceClause) (decision : DecisionResult) :
    String × ℚ × String :=
  let clause_text := pyLower clause.clause_text
  let decision_outcome := pyLower decision.decision
  let supports_count := (supportsKeywords.filter (fun k => strIn k clause_text)).length
  let contradicts_count := (contradictsKeywords.filter (fun k => strIn k clause_text)).length
  let validates_count := (validatesKeywords.filter (fun k => strIn k clause_text)).length
  if decision_outcome = "approved" then
    if supports_count > contradicts_count then
      ("supports", min 1 (clause.relevance_score + 2/10),
        "Clause contains " ++ toString supports_count ++
          " supportive terms for approved decision")
    else if contradicts_count > supports_count then
      ("contradicts", clause.relevance_score,
        "Clause contains " ++ toString contradicts_count ++
          " contradictory terms despite approval")
    else
      ("validates", clause.relevance_score,
        "Clause provides validation criteria for decision")
  else if decision_outcome = "rejected" then
    if contradicts_count > supports_count then
      ("supports", min 1 (clause.relevance_score + 2/10),
        "Clause contains " ++ toString contradicts_count ++
          " exclusionary terms supporting rejection")
    else if supports_count > contradicts_count then
      ("contradicts", clause.relevance_score,
        "Clause contains " ++ toString supports_count ++
          " supportive terms despite rejection")
    else
      ("validates", clause.relevance_score,
        "Clause provides validation criteria for decision")
  else
    if validates_count > 0 then
      ("validates", clause.relevance_score,
        "Clause contains " ++ toString validates_count ++ " validation requirements")
    else
      ("references", clause.relevance_score * (8/10),
        "Clause provides reference information for decision")

/-- `MappingAgent._create_traceability_link` (line 177), with the fresh
link UUID supplied. -/
def create_traceability_link (link_id decision_id : String) (clause : SourceClause)
    (decision : DecisionResult) : TraceabilityLink :=
  let (relationship_type, strength, explanation) :=
    analyze_clause_relationship clause decision
  { link_id := link_id
    decision_id := decision_id
    source_clause_id := clause.clause_id
    relationship_type := relationship_type
    strength := strength
    explanation := explanation }

/-- `MappingAgent.create_decision_trace` (line 101): index the clauses,
create one traceability link per clause (one fresh UUID each, supplied by
`link_ids`), link the decision to the clause ids, store the trace, log an
audit event, and return the trace id.  No step can raise, so the
source's `except` arm (returning `""`) is unreachable here. -/
def create_decision_trace (st : MappingState)
    (trace_id decision_id : String) (link_ids : ℕ → String)
    (query : String) (entities : Entities) (decision_result : DecisionResult)
    (source_clauses : List SourceClause) (decision_path : List String) :
    String × MappingState :=
  let st1 := source_clauses.foldl add_clause st
  let links := source_clauses.enum.map (fun (i, clause) =>
    create_traceability_link (link_ids i) decision_id clause decision_result)
  let newLinks := links.foldl
    (fun d (l : TraceabilityLink) => dictInsert d l.link_id l) st1.traceability_links
  let st2 := { st1 with traceability_links := newLinks }
  let clause_ids := source_clauses.map (fun c => c.clause_id)
  let st3 := { st2 with
    decision_index := dictInsert st2.decision_index decision_id clause_ids }
  let trace : DecisionTrace :=
    { trace_id := trace_id
      query := query
      decision := decision_result.decision
      entities := entities
      confidence_score := decision_result.confidence_score
      source_links := links
      decision_path := decision_path
      metadata_decision_id := decision_id
      metadata_amount := decision_result.amount }
  let st4 := { st3 with
    decision_traces := dictInsert st3.decision_traces trace_id trace
    audit_log := st3.audit_log ++ ["decision_trace_created"] }
  (trace_id, st4)

/-- Entry of the list returned by `get_source_clauses_for_decision`: the
stored clause data plus its traceability-link summaries. -/
structure ClauseWithLinks where
  document_name : String
  clause_text : String
  relevance_score : ℚ
  page_number : Option ℤ
  word_count : ℕ
  char_count : ℕ
  traceability_links : List (String × ℚ × String)
deriving DecidableEq

/-- `MappingAgent.get_source_clauses_for_decision` (line 257): clause ids
linked to the decision, resolved through the clause index, each annotated
with the matching links (dict-value order). -/
def get_source_clauses_for_decision (st : MappingState) (decision_id : String) :
    List ClauseWithLinks :=
  let clause_ids := dictGetD st.decision_index decision_id []
  clause_ids.filterMap (fun clause_id =>
    (dictGet st.clause_index clause_id).map (fun data =>
      let links := (dictValues st.traceability_links).filter (fun l =>
        l.source_clause_id = clause_id ∧ l.decision_id = decision_id)
      { document_name := data.document_name
        clause_text := data.clause_text
        relevance_score := data.relevance_score
        page_number := data.page_number
        word_count := data.word_count
        char_count := data.char_count
        traceability_links :=
          links.map (fun l => (l.relationship_type, l.strength, l.explanation)) }))

/-- Entry of the list returned by `get_decisions_using_clause`. -/
structure DecisionUsingClause where
  trace_id : String
  decision : String
  query : String
  confidence_score : ℚ
  relationship_type : String
  relationship_strength : ℚ
deriving DecidableEq

/-- `MappingAgent.get_decisions_using_clause` (line 280): every link that
references the clause, resolved to the first stored trace whose metadata
decision id matches the link's. -/
def get_decisions_using_clause (st : MappingState) (clause_id : String) :
    List DecisionUsingClause :=
  let related_links := (dictValues st.traceability_links).filter
    (fun l => l.source_clause_id = clause_id)
  related_links.filterMap (fun link =>
    ((dictValues st.decision_traces).find? (fun t =>
        t.metadata_decision_id = link.decision_id)).map (fun trace =>
      { trace_id := trace.trace_id
        decision := trace.decision
        query := trace.query
        confidence_score := trace.confidence_score
        relationship_type := link.relationship_type
        relationship_strength := link.strength }))

/-! ## Lemmas about the dict primitives -/

theorem dictGet_insert_self {α : Type} (d : Dict α) (k : String) (v : α) :
    dictGet (dictInsert d k v) k = some v := by
  induction d with
  | nil => simp [dictInsert, dictGet]
  | cons kv rest ih =>
    obtain ⟨k', v'⟩ := kv
    by_cases h : k' = k <;> simp [dictInsert, dictGet, h, ih]

theorem dictGet_insert_ne {α : Type} (d : Dict α) (k k' : String) (v : α)
    (h : k' ≠ k) : dictGet (dictInsert d k' v) k = dictGet d k := by
  induction d with
  | nil => simp [dictInsert, dictGet, h]
  | cons kv rest ih =>
    obtain ⟨k'', v''⟩ := kv
    by_cases h2 : k'' = k' <;> by_cases h3 : k'' = k <;>
      simp_all [dictInsert, dictGet]

/-! ## Validation-agent lemmas and claim C3 -/

/-- The violated-rule names accumulated by the `validate_claim` loop are
exactly the names of the rules whose evaluation failed, in evaluation
order. -/
theorem validateFold_violated (entities : Entities) (rules : List PolicyRule)
    (acc : ValidateAcc) :
    (rules.foldl (validateStep entities) acc).1 =
      acc.1 ++ (rules.filter (fun r => !(r.evaluate entities).1)).map PolicyRule.name := by
  induction rules generalizing acc with
  | nil => simp
  | cons r rest ih =>
    obtain ⟨v, s, w, d⟩ := acc
    rcases he : r.evaluate entities with ⟨sat, expl⟩
    cases sat <;>
      simp [validateStep, he, ih, List.filter_cons]

/-- `violated_rules` of `validate_claim`, closed form. -/
theorem validate_claim_violated (entities : Entities) (clauses : List SourceClause) :
    (validate_claim entities clauses).violated_rules =
      ((sortRulesByPriority defaultRules).filter
        (fun r => !(r.evaluate entities).1)).map PolicyRule.name := by
  simp [validate_claim, validateFold_violated]

/-- `is_valid` of `validate_claim` is false exactly when some violated
name passes the criticality test. -/
theorem validate_claim_is_valid_false_iff (entities : Entities)
    (clauses : List SourceClause) :
    (validate_claim entities clauses).is_valid = false ↔
      (validate_claim entities clauses).violated_rules.filter
        isCriticalViolationName ≠ [] := by
  simp [validate_claim]

/-- The stable priority sort of the default rules, computed. -/
theorem sorted_defaultRules :
    sortRulesByPriority defaultRules =
      [ageLimitRule, excludedProceduresRule, waitingPeriodRule,
       geographicCoverageRule, claimAmountLimitRule, coveredProceduresRule,
       preAuthorizationRule] := by decide

/-- Membership in the violated-rule names. -/
theorem mem_violated_iff (entities : Entities) (clauses : List SourceClause)
    (x : String) :
    x ∈ (validate_claim entities clauses).violated_rules ↔
      ∃ r ∈ sortRulesByPriority defaultRules,
        (r.evaluate entities).1 = false ∧ r.name = x := by
  rw [validate_claim_violated]
  simp [List.mem_map, List.mem_filter]
  constructor
  · rintro ⟨r, ⟨hr, hf⟩, hn⟩
    exact ⟨r, hr, by simpa using hf, hn⟩
  · rintro ⟨r, hr, hf, hn⟩
    exact ⟨r, ⟨hr, by simpa using hf⟩, hn⟩

/-- Nonempty filters have a member satisfying the predicate. -/
theorem filter_ne_nil_iff_exists (p : String → Bool) (l : List String) :
    l.filter p ≠ [] ↔ ∃ x ∈ l, p x := by
  constructor
  · intro h
    rcases List.exists_mem_of_ne_nil _ h with ⟨x, hx⟩
    exact ⟨x, (List.mem_filter.mp hx).1, (List.mem_filter.mp hx).2⟩
  · rintro ⟨x, hx, hc⟩
    exact List.ne_nil_of_mem (List.mem_filter.mpr ⟨hx, hc⟩)

/-- Every failing default rule lands in `violated_rules`. -/
theorem violated_of_rule_fails (entities : Entities)
    (clauses : List SourceClause) :
    ∀ r ∈ defaultRules, (r.evaluate entities).1 = false →
      r.name ∈ (validate_claim entities clauses).violated_rules := by
  have hmemsort : ∀ r : PolicyRule,
      r ∈ sortRulesByPriority defaultRules ↔ r ∈ defaultRules := fun r =>
    (List.perm_insertionSort _ _).mem_iff
  intro r hr hf
  exact (mem_violated_iff entities clauses r.name).mpr
    ⟨r, (hmemsort r).mpr hr, hf, rfl⟩

/-- Validity is decided exactly by the two critical rules. -/
theorem is_valid_false_iff_critical (entities : Entities)
    (clauses : List SourceClause) :
    (validate_claim entities clauses).is_valid = false ↔
      ((ageLimitRule.evaluate entities).1 = false ∨
       (excludedProceduresRule.evaluate entities).1 = false) := by
  rw [validate_claim_is_valid_false_iff, filter_ne_nil_iff_exists]
  constructor
  · rintro ⟨x, hx, hc⟩
    rcases (mem_violated_iff entities clauses x).mp hx with ⟨r, hr, hf, rfl⟩
    rw [sorted_defaultRules] at hr
    simp only [List.mem_cons, List.not_mem_nil, or_false] at hr
    rcases hr with rfl | rfl | rfl | rfl | rfl | rfl | rfl
    · exact Or.inl hf
    · exact Or.inr hf
    · exact absurd hc (by decide)
    · exact absurd hc (by decide)
    · exact absurd hc (by decide)
    · exact absurd hc (by decide)
    · exact absurd hc (by decide)
  · rintro (hf | hf)
    · exact ⟨ageLimitRule.name,
        violated_of_rule_fails entities clauses ageLimitRule (by decide) hf,
        by decide⟩
    · exact ⟨excludedProceduresRule.name,
        violated_of_rule_fails entities clauses excludedProceduresRule
          (by decide) hf,
        by decide⟩

/-- C3: for every entities/evidence input, `validate_claim` returns
`is_valid = false` exactly when one of the two critical rules
(`age_limit`, `excluded_procedures`) is violated; every other violated
rule still lands in `violated_rules` but never by itself invalidates the
claim. -/
theorem C3_critical_rules_decide_validity (entities : Entities)
    (clauses : List SourceClause) :
    ((validate_claim entities clauses).is_valid = false ↔
      ((ageLimitRule.evaluate entities).1 = false ∨
       (excludedProceduresRule.evaluate entities).1 = false)) ∧
    (∀ r ∈ defaultRules, (r.evaluate entities).1 = false →
      r.name ∈ (validate_claim entities clauses).violated_rules) :=
  ⟨is_valid_false_iff_critical entities clauses,
   violated_of_rule_fails entities clauses⟩

/-- C3 witness: concrete entities for which the non-critical waiting
period rule is violated yet the claim remains valid, with its name in
`violated_rules` via the theorem. -/
theorem C3_critical_rules_decide_validity_witness :
    waitingPeriodRule ∈ defaultRules ∧
    (waitingPeriodRule.evaluate
      [("age", EntityValue.one "46"), ("procedure", EntityValue.one "dental")]).1 = false ∧
    "Waiting Period Check" ∈
      (validate_claim
        [("age", EntityValue.one "46"), ("procedure", EntityValue.one "dental")]
        []).violated_rules ∧
    (validate_claim
      [("age", EntityValue.one "46"), ("procedure", EntityValue.one "dental")]
      []).is_valid = true :=
  ⟨by decide, by decide,
    (C3_critical_rules_decide_validity
      [("age", EntityValue.one "46"), ("procedure", EntityValue.one "dental")] []).2
      waitingPeriodRule (by decide) (by decide),
    by decide⟩

/-! ## Decision-agent lemmas and claims C1, C2, C9 -/

/-- C1: `make_decision` never lets an internal error escape — whenever
the inner decision computation fails, it returns the safe default:
decision `"rejected"`, confidence 0.0, and a justification embedding the
error text. -/
theorem C1_make_decision_never_throws (entities : Entities)
    (source_clauses : List SourceClause) (validation_result : ValidationResult)
    (query_type : String) (e : String)
    (h : evaluate_coverage_decision
      ⟨entities, source_clauses, validation_result, query_type, "normal"⟩ =
        Except.error e) :
    make_decision entities source_clauses validation_result query_type =
      { decision := "rejected"
        confidence_score := 0
        amount := none
        justification := "Error in decision processing: " ++ e
        decision_factors := []
        risk_assessment := { overall_risk := "unknown", factors := [], risk_score := 0 } } := by
  unfold make_decision
  rw [h]

/-- C1 witness: a non-numeric age entity makes the risk-assessment
`int(...)` conversion raise; `make_decision` converts it to the safe
default rejection. -/
theorem C1_make_decision_never_throws_witness :
    make_decision [("age", EntityValue.one "abc")] [] ⟨true, [], [], [], []⟩
        "coverage" =
      { decision := "rejected"
        confidence_score := 0
        amount := none
        justification :=
          "Error in decision processing: invalid literal for int with base 10: abc"
        decision_factors := []
        risk_assessment := { overall_risk := "unknown", factors := [], risk_score := 0 } } :=
  C1_make_decision_never_throws _ _ _ _ _ rfl

/-- Eliminate a successful monadic bind over `Except`. -/
theorem except_bind_ok {α β : Type} (x : Except String α) (f : α → Except String β)
    (b : β) (h : x >>= f = Except.ok b) :
    ∃ a, x = Except.ok a ∧ f a = Except.ok b := by
  cases x with
  | error e => simp [Bind.bind, Except.bind] at h
  | ok a => exact ⟨a, rfl, by simpa [Bind.bind, Except.bind] using h⟩

/-- A successful `_calculate_coverage_amount` returns a value exactly
when the procedure entity key is present. -/
theorem calculate_ok_isSome (ctx : DecisionContext) (amt : Option ℚ)
    (h : calculate_coverage_amount ctx = Except.ok amt) :
    amt.isSome = dictMem ctx.entities "procedure" := by
  unfold calculate_coverage_amount at h
  cases hm : dictGet ctx.entities "procedure" with
  | none =>
    rw [hm] at h
    simp only [pure, Except.pure, Except.ok.injEq] at h
    subst h
    simp [dictMem, hm]
  | some pv =>
    rw [hm] at h
    obtain ⟨scaled, _, h2⟩ := except_bind_ok _ _ _ h
    simp only [pure, Except.pure, Except.ok.injEq] at h2
    subst h2
    simp [dictMem, hm]

/-- Shape of a successful decision computation: the decision string is
the first matching decision branch, and the amount is present exactly
when the decision is `"approved"` and a procedure entity key exists. -/
theorem evaluate_ok_spec (ctx : DecisionContext) (r : DecisionResult)
    (h : evaluate_coverage_decision ctx = Except.ok r) :
    r.decision = (decisionBranch ctx.validation_result
      (evaluate_clause_support ctx.source_clauses ctx.entities).2).1 ∧
    (r.amount.isSome = true ↔
      (r.decision = "approved" ∧ dictMem ctx.entities "procedure" = true)) := by
  unfold evaluate_coverage_decision at h
  cases hra : assess_risk ctx with
  | error e => rw [hra] at h; simp [Except.bind] at h
  | ok risk =>
    rw [hra] at h
    simp only [Except.bind] at h
    by_cases hd : (decisionBranch ctx.validation_result
        (evaluate_clause_support ctx.source_clauses ctx.entities).2).1 = "approved"
    · rw [if_pos hd] at h
      cases hc : calculate_coverage_amount ctx with
      | error e => rw [hc] at h; simp [Except.bind] at h
      | ok amt =>
        rw [hc] at h
        simp only [Except.bind, Except.ok.injEq] at h
        subst h
        refine ⟨rfl, ?_⟩
        simp only [hd, true_and]
        rw [calculate_ok_isSome ctx amt hc]
    · rw [if_neg hd] at h
      simp only [Except.bind, Except.ok.injEq] at h
      subst h
      refine ⟨rfl, ?_⟩
      simp [hd]

/-- C2 counterexample: a valid claim supported by a clause mentioning the
age entity is `approved`, yet carries no amount because no procedure
entity was extracted — refuting "amount is present iff approved". -/
theorem C2_counterexample_approved_without_amount :
    (make_decision [("age", EntityValue.one "46")]
      [⟨"policy.pdf", "c1", "covered for age 46", 9/10, none⟩]
      ⟨true, [], [], [], []⟩ "coverage").decision = "approved" ∧
    (make_decision [("age", EntityValue.one "46")]
      [⟨"policy.pdf", "c1", "covered for age 46", 9/10, none⟩]
      ⟨true, [], [], [], []⟩ "coverage").amount = none := by
  constructor <;> decide

/-- C2 (amended): a decision's amount is present iff the decision is
`"approved"` AND the entities contain a procedure key; in particular no
non-approved decision ever carries an amount, but an approved decision
without a procedure entity carries none either. -/
theorem C2_amount_iff_approved_and_procedure (entities : Entities)
    (source_clauses : List SourceClause) (validation_result : ValidationResult)
    (query_type : String) :
    (make_decision entities source_clauses validation_result query_type).amount.isSome
        = true ↔
      ((make_decision entities source_clauses validation_result query_type).decision
          = "approved" ∧
        dictMem entities "procedure" = true) := by
  unfold make_decision
  cases hev : evaluate_coverage_decision
      ⟨entities, source_clauses, validation_result, query_type, "normal"⟩ with
  | error e => simp
  | ok r => exact (evaluate_ok_spec _ r hev).2

/-- A decision computed from an invalid validation result never lands in
the `approved` branch. -/
theorem decisionBranch_ne_approved (vr : ValidationResult) (sc : Bool)
    (h : vr.is_valid = false) : (decisionBranch vr sc).1 ≠ "approved" := by
  unfold decisionBranch
  rw [if_neg (by simp [h])]
  split_ifs <;> simp

/-- `make_decision` never returns `approved` when validation failed. -/
theorem make_decision_not_approved_of_invalid (entities : Entities)
    (source_clauses : List SourceClause) (validation_result : ValidationResult)
    (query_type : String) (h : validation_result.is_valid = false) :
    (make_decision entities source_clauses validation_result query_type).decision
      ≠ "approved" := by
  unfold make_decision
  cases hev : evaluate_coverage_decision
      ⟨entities, source_clauses, validation_result, query_type, "normal"⟩ with
  | error e => simp
  | ok r =>
    rw [(evaluate_ok_spec _ r hev).1]
    exact decisionBranch_ne_approved _ _ h

/-- A value whose string form contains no digit always extracts as 0.0
(the filtered numeric string is empty or fails to parse as a float). -/
theorem extract_numeric_value_eq_zero_of_no_digit (v : EntityValue)
    (h : ∀ c ∈ (pyStr v).toList, c.isDigit = false) :
    extract_numeric_value v = 0 := by
  have hcore : ((pyStr v).toList.filter
      (fun c => c.isDigit || c = '.')).any Char.isDigit = false := by
    rw [Bool.eq_false_iff]
    intro hany
    rcases List.any_eq_true.mp hany with ⟨c, hc, hd⟩
    have hfc := h c (List.mem_of_mem_filter hc)
    rw [hfc] at hd
    exact Bool.false_ne_true hd
  simp only [extract_numeric_value]
  split
  · rfl
  · have hnone : pyFloatOpt (String.mk ((pyStr v).toList.filter
        (fun c => c.isDigit || c = '.'))) = none := by
      simp only [pyFloatOpt]
      split
      · rename_i hcond
        have hcond2 : ((pyStr v).toList.filter
            (fun c => c.isDigit || c = '.')).any Char.isDigit = true := hcond
        rw [hcore] at hcond2
        exact absurd hcond2 Bool.false_ne_true
      · rfl
    rw [hnone]
    rfl

/-- With a missing or digit-free age entity, the critical `age_limit`
rule is violated (numeric age defaults to 0 < 18). -/
theorem ageLimitRule_fails_of_bad_age (entities : Entities)
    (h : dictGet entities "age" = none ∨
      ∃ v, dictGet entities "age" = some v ∧
        ∀ c ∈ (pyStr v).toList, c.isDigit = false) :
    (ageLimitRule.evaluate entities).1 = false := by
  have hz : extract_numeric_value (dictGetD entities "age" (.one "0")) = 0 := by
    rcases h with h | ⟨v, hv, hnd⟩
    · rw [dictGetD, h]
      decide
    · rw [dictGetD, hv]
      exact extract_numeric_value_eq_zero_of_no_digit v hnd
  have hchk : check_condition (.min_age 18) entities = false := by
    simp only [check_condition, hz]
    norm_num
  simp [PolicyRule.evaluate, ageLimitRule, List.find?, hchk]

/-- C9: when the entities carry no age (or an age without digits), the
numeric age defaults to 0, the critical `age_limit` rule is violated,
validation fails, and the decision — made from that validation result —
is never `approved`. -/
theorem C9_missing_age_never_approved (entities : Entities)
    (source_clauses : List SourceClause) (query_type : String)
    (h : dictGet entities "age" = none ∨
      ∃ v, dictGet entities "age" = some v ∧
        ∀ c ∈ (pyStr v).toList, c.isDigit = false) :
    (validate_claim entities source_clauses).is_valid = false ∧
    (make_decision entities source_clauses (validate_claim entities source_clauses)
        query_type).decision ≠ "approved" := by
  have hinvalid : (validate_claim entities source_clauses).is_valid = false :=
    (is_valid_false_iff_critical entities source_clauses).mpr
      (Or.inl (ageLimitRule_fails_of_bad_age entities h))
  exact ⟨hinvalid,
    make_decision_not_approved_of_invalid _ _ _ _ hinvalid⟩

/-- C9 witness: an empty entity dict — no age at all.  Validation fails
and the resulting decision is the default rejection, not approval. -/
theorem C9_missing_age_never_approved_witness :
    (validate_claim [] []).is_valid = false ∧
    (make_decision [] [] (validate_claim [] []) "coverage").decision ≠ "approved" :=
  C9_missing_age_never_approved [] [] "coverage" (Or.inl rfl)

/-! ## Query-parser lemmas and claim C7 -/

/-- Inserting another field's values leaves a field's entry unchanged. -/
theorem dictGet_insertEntityValues_ne (acc : Entities) (name field : String)
    (values : List String) (h : name ≠ field) :
    dictGet (insertEntityValues acc name values) field = dictGet acc field := by
  unfold insertEntityValues
  match values with
  | [] => rfl
  | [v] => exact dictGet_insert_ne acc field name _ h
  | v1 :: v2 :: vs => exact dictGet_insert_ne acc field name _ h

/-- Inserting two or more values for a field stores the full list. -/
theorem dictGet_insertEntityValues_many (acc : Entities) (name : String)
    (values : List String) (h : 2 ≤ values.length) :
    dictGet (insertEntityValues acc name values) name =
      some (EntityValue.many values) := by
  match values with
  | [] => simp at h
  | [v] => simp at h
  | v1 :: v2 :: vs => exact dictGet_insert_self acc name _

/-- C7 counterexample: the query "knee surgery" yields two procedure
matches, and the parsed entity value for `procedure` is the collection of
both matches, not the first match. -/
theorem C7_counterexample_multi_match_collection :
    dictGet (parse_query_entities "knee surgery") "procedure" =
      some (EntityValue.many ["knee", "surgery"]) ∧
    dictGet (parse_query_entities "knee surgery") "procedure" ≠
      some (EntityValue.one "knee") := by
  constructor <;> decide

/-- C7 (amended): when a field's pattern produces two or more matches,
`parse_query` stores the full list of all (stripped) matches for that
field — there is no collapse to the first match and no multi-valued
declaration mechanism; only a single match is stored as a bare value. -/
theorem C7_multi_match_keeps_all (query field : String)
    (f : String → List String) (hfield : (field, f) ∈ entityPatternTable)
    (h2 : 2 ≤ ((f query).map pyStrip).length) :
    dictGet (parse_query_entities query) field =
      some (EntityValue.many ((f query).map pyStrip)) := by
  have htable : entityPatternTable =
      [("age", scanIter ageMatch),
       ("gender", scanIter (keywordMatch ["male", "female", "man", "woman", "m", "f"])),
       ("procedure", scanIter (keywordMatch
         ["surgery", "operation", "treatment", "procedure", "knee", "hip",
          "heart", "brain", "cancer", "diabetes"])),
       ("location", scanIter locationMatch),
       ("policy_duration", scanIter durationMatch),
       ("amount", scanIter amountMatch)] := rfl
  rw [htable] at hfield
  unfold parse_query_entities
  rw [htable]
  simp only [List.foldl_cons, List.foldl_nil]
  simp only [List.mem_cons, List.not_mem_nil, or_false, Prod.mk.injEq] at hfield
  rcases hfield with ⟨rfl, rfl⟩ | ⟨rfl, rfl⟩ | ⟨rfl, rfl⟩ | ⟨rfl, rfl⟩ |
    ⟨rfl, rfl⟩ | ⟨rfl, rfl⟩
  · rw [dictGet_insertEntityValues_ne _ _ _ _ (by decide),
      dictGet_insertEntityValues_ne _ _ _ _ (by decide),
      dictGet_insertEntityValues_ne _ _ _ _ (by decide),
      dictGet_insertEntityValues_ne _ _ _ _ (by decide),
      dictGet_insertEntityValues_ne _ _ _ _ (by decide)]
    exact dictGet_insertEntityValues_many _ _ _ h2
  · rw [dictGet_insertEntityValues_ne _ _ _ _ (by decide),
      dictGet_insertEntityValues_ne _ _ _ _ (by decide),
      dictGet_insertEntityValues_ne _ _ _ _ (by decide),
      dictGet_insertEntityValues_ne _ _ _ _ (by decide)]
    exact dictGet_insertEntityValues_many _ _ _ h2
  · rw [dictGet_insertEntityValues_ne _ _ _ _ (by decide),
      dictGet_insertEntityValues_ne _ _ _ _ (by decide),
      dictGet_insertEntityValues_ne _ _ _ _ (by decide)]
    exact dictGet_insertEntityValues_many _ _ _ h2
  · rw [dictGet_insertEntityValues_ne _ _ _ _ (by decide),
      dictGet_insertEntityValues_ne _ _ _ _ (by decide)]
    exact dictGet_insertEntityValues_many _ _ _ h2
  · rw [dictGet_insertEntityValues_ne _ _ _ _ (by decide)]
    exact dictGet_insertEntityValues_many _ _ _ h2
  · exact dictGet_insertEntityValues_many _ _ _ h2

/-- C7 witness: "hip surgery" produces two procedure matches; the parsed
value is the full list. -/
theorem C7_multi_match_keeps_all_witness :
    dictGet (parse_query_entities "hip surgery") "procedure" =
      some (EntityValue.many ["hip", "surgery"]) :=
  C7_multi_match_keeps_all "hip surgery" "procedure"
    (scanIter (keywordMatch
      ["surgery", "operation", "treatment", "procedure", "knee", "hip",
       "heart", "brain", "cancer", "diabetes"]))
    (by simp [entityPatternTable]) (by decide)

/-! ## Chunker claims C10 and C5 -/

/-- C10: chunking does not preserve all input text.  With
`max_chunk_size = 20`, `min_chunk_size = 15`, no overlap, the sentence
"tinywords" (≤ 10 characters) is dropped at sentence extraction and the
trailing sentence "dddddddddddd" (12 characters, below the minimum) is
discarded rather than carried forward: both occur in the input but in no
produced chunk. -/
theorem C10_chunking_drops_text :
    strIn "tinywords" "aaaaa bbbbb ccccc. tinywords. dddddddddddd." = true ∧
    strIn "dddddddddddd" "aaaaa bbbbb ccccc. tinywords. dddddddddddd." = true ∧
    (create_chunks ⟨20, 15, 0, 7/10, true, true⟩
      "aaaaa bbbbb ccccc. tinywords. dddddddddddd." "doc").map
        DocumentChunk.content = ["aaaaa bbbbb ccccc"] ∧
    ((create_chunks ⟨20, 15, 0, 7/10, true, true⟩
      "aaaaa bbbbb ccccc. tinywords. dddddddddddd." "doc").all (fun c =>
        !(strIn "tinywords" c.content) && !(strIn "dddddddddddd" c.content))) = true := by
  refine ⟨?_, ?_, ?_, ?_⟩ <;> decide

/-- C5 counterexample: a single sentence longer than `max_chunk_size`
becomes a chunk of its own length — 30 characters against a maximum of
20 — so "every chunk's length ≤ maxSize" fails. -/
theorem C5_counterexample_chunk_exceeds_max :
    ∃ c ∈ create_chunks ⟨20, 5, 0, 7/10, true, true⟩
      "aaaaaaaaaaaaaaaaaaaaaaaaaaaaaa. bbbbbbbbbbbb." "doc",
      c.content.length > 20 := by
  decide

/-- Character-level strip (`pyStrip` works on this). -/
def stripChars (l : List Char) : List Char :=
  ((l.dropWhile pyIsSpace).reverse.dropWhile pyIsSpace).reverse

/-- Whitespace-free first and last characters: the shape of every
sentence and accumulated chunk text in the chunker. -/
def goodEnds (l : List Char) : Prop :=
  (∀ c, l.head? = some c → pyIsSpace c = false) ∧
  (∀ c, l.getLast? = some c → pyIsSpace c = false)

theorem pyStrip_eq_stripChars (s : String) :
    pyStrip s = String.mk (stripChars s.data) := rfl

theorem head?_dropWhile_false (p : Char → Bool) (l : List Char) (c : Char)
    (h : (l.dropWhile p).head? = some c) : p c = false := by
  induction l with
  | nil => simp [List.dropWhile] at h
  | cons a rest ih =>
    cases hp : p a with
    | true => rw [List.dropWhile, hp] at h; exact ih h
    | false =>
      rw [List.dropWhile, hp] at h
      simp only [List.head?_cons, Option.some.injEq] at h
      subst h
      exact hp

theorem goodEnds_nil : goodEnds [] := by
  constructor <;> intro c h <;> simp at h

theorem stripChars_eq_self (l : List Char) (h : goodEnds l) :
    stripChars l = l := by
  obtain ⟨h1, h2⟩ := h
  have hd : l.dropWhile pyIsSpace = l := by
    cases hl : l with
    | nil => simp [List.dropWhile]
    | cons a rest =>
      rw [List.dropWhile, h1 a (by simp [hl])]
  have hr : l.reverse.dropWhile pyIsSpace = l.reverse := by
    cases hl : l.reverse with
    | nil => simp [List.dropWhile]
    | cons a rest =>
      rw [List.dropWhile, h2 a (by rw [← List.head?_reverse, hl]; simp)]
  unfold stripChars
  rw [hd, hr, List.reverse_reverse]

theorem goodEnds_stripChars (l : List Char) : goodEnds (stripChars l) := by
  unfold stripChars
  constructor
  · intro c h
    rw [List.head?_reverse] at h
    rcases hsuf : (l.dropWhile pyIsSpace).reverse.dropWhile pyIsSpace with _ | ⟨a, rest⟩
    · rw [hsuf] at h; simp at h
    · obtain ⟨t, ht⟩ := List.dropWhile_suffix
        (l := (l.dropWhile pyIsSpace).reverse) (p := pyIsSpace)
      rw [hsuf] at h ht
      have hlast : ((l.dropWhile pyIsSpace).reverse).getLast? = some c := by
        rw [← ht, List.getLast?_append_of_ne_nil _ (by simp)]
        exact h
      rw [List.getLast?_reverse] at hlast
      exact head?_dropWhile_false pyIsSpace l c hlast
  · intro c h
    rw [List.getLast?_reverse] at h
    exact head?_dropWhile_false pyIsSpace _ c h

theorem goodEnds_append_space (a b : List Char) (ha : goodEnds a)
    (hb : goodEnds b) (na : a ≠ []) (nb : b ≠ []) :
    goodEnds (a ++ ' ' :: b) := by
  constructor
  · intro c h
    refine ha.1 c ?_
    rcases a with _ | ⟨x, xs⟩
    · exact absurd rfl na
    · simpa using h
  · intro c h
    rw [List.getLast?_append_of_ne_nil _ (by simp)] at h
    rcases hb' : b with _ | ⟨x, xs⟩
    · exact absurd hb' nb
    · rw [hb'] at h
      rw [show (' ' :: x :: xs).getLast? = (x :: xs).getLast? from rfl] at h
      exact hb.2 c (by rw [hb']; exact h)

theorem goodEnds_of_noWs (l : List Char) (h : ∀ c ∈ l, pyIsSpace c = false) :
    goodEnds l :=
  ⟨fun c hc => h c (List.mem_of_mem_head? hc),
   fun c hc => h c (List.mem_of_mem_getLast? hc)⟩

/-- `pyStrip` fixes strings with whitespace-free ends. -/
theorem pyStrip_eq_self (s : String) (h : goodEnds s.data) : pyStrip s = s := by
  rw [pyStrip_eq_stripChars, stripChars_eq_self s.data h]

/-- `pyStrip` output has whitespace-free ends. -/
theorem goodEnds_pyStrip (s : String) : goodEnds (pyStrip s).data :=
  goodEnds_stripChars s.data

/-- Stripping never lengthens a string. -/
theorem pyStrip_length_le (s : String) : (pyStrip s).length ≤ s.length := by
  show (stripChars s.data).length ≤ s.data.length
  unfold stripChars
  rw [List.length_reverse]
  calc ((s.data.dropWhile pyIsSpace).reverse.dropWhile pyIsSpace).length
      ≤ (s.data.dropWhile pyIsSpace).reverse.length := dropWhile_length_le _ _
    _ = (s.data.dropWhile pyIsSpace).length := List.length_reverse _
    _ ≤ s.data.length := dropWhile_length_le _ _

/-- Words produced by `str.split()` are nonempty and whitespace-free. -/
theorem pySplitWs_words (l : List Char) :
    ∀ w ∈ pySplitWsAux l, w ≠ "" ∧ ∀ c ∈ w.data, pyIsSpace c = false := by
  induction l using pySplitWsAux.induct with
  | case1 => simp [pySplitWsAux]
  | case2 c rest hsp ih =>
    rw [pySplitWsAux, if_pos hsp]
    exact ih
  | case3 c rest hsp ih =>
    rw [pySplitWsAux, if_neg hsp]
    intro w hw
    rcases List.mem_cons.mp hw with hweq | hmem
    · subst hweq
      refine ⟨?_, ?_⟩
      · intro hcon
        have hdata := congrArg String.data hcon
        simp at hdata
      · intro d hd
        have hd' : d ∈ c :: rest.takeWhile (fun x => decide (¬ pyIsSpace x = true)) := hd
        rcases List.mem_cons.mp hd' with rfl | hmem2
        · exact Bool.eq_false_iff.mpr hsp
        · have := List.mem_takeWhile_imp hmem2
          simpa using this
    · exact ih w hmem

theorem string_eq_empty_iff (s : String) : s = "" ↔ s.data = [] := by
  cases s with
  | mk l =>
    constructor
    · intro h
      exact congrArg String.data h
    · intro h
      simp only at h
      exact congrArg String.mk h

theorem goodEnds_intercalate_go (words : List String) (acc : String)
    (hacc : goodEnds acc.data ∧ acc ≠ "")
    (hw : ∀ w ∈ words, w ≠ "" ∧ ∀ c ∈ w.data, pyIsSpace c = false) :
    goodEnds (String.intercalate.go acc " " words).data ∧
      String.intercalate.go acc " " words ≠ "" := by
  induction words generalizing acc with
  | nil => exact hacc
  | cons b bs ih =>
    rw [String.intercalate.go]
    apply ih
    · have hdata : (acc ++ " " ++ b).data = acc.data ++ ' ' :: b.data := by
        show (acc.data ++ " ".data) ++ b.data = acc.data ++ ' ' :: b.data
        simp
      constructor
      · rw [hdata]
        exact goodEnds_append_space _ _ hacc.1
          (goodEnds_of_noWs _ (hw b (by simp)).2)
          (fun hc => hacc.2 ((string_eq_empty_iff acc).mpr hc))
          (fun hc => (hw b (by simp)).1 ((string_eq_empty_iff b).mpr hc))
      · intro hc
        rw [string_eq_empty_iff, hdata] at hc
        rcases List.append_eq_nil.mp hc with ⟨_, h2⟩
        simp at h2
    · intro w hwm
      exact hw w (List.mem_cons_of_mem _ hwm)

theorem goodEnds_intercalate (words : List String)
    (hw : ∀ w ∈ words, w ≠ "" ∧ ∀ c ∈ w.data, pyIsSpace c = false) :
    goodEnds (String.intercalate " " words).data ∧
      (words ≠ [] → String.intercalate " " words ≠ "") := by
  cases words with
  | nil => exact ⟨goodEnds_nil, fun h => absurd rfl h⟩
  | cons a as =>
    rw [String.intercalate]
    have hgo := goodEnds_intercalate_go as a
      ⟨goodEnds_of_noWs _ (hw a (by simp)).2, (hw a (by simp)).1⟩
      (fun w hwm => hw w (List.mem_cons_of_mem _ hwm))
    exact ⟨hgo.1, fun _ => hgo.2⟩

/-- Appending with a single space preserves whitespace-free ends and
nonemptiness, at string level. -/
theorem goodEnds_strAppend (a b : String) (ha : goodEnds a.data) (hb : goodEnds b.data)
    (na : a ≠ "") (nb : b ≠ "") :
    goodEnds (a ++ " " ++ b).data ∧ (a ++ " " ++ b) ≠ "" := by
  have hdata : (a ++ " " ++ b).data = a.data ++ ' ' :: b.data := by
    show (a.data ++ " ".data) ++ b.data = a.data ++ ' ' :: b.data
    simp
  constructor
  · rw [hdata]
    exact goodEnds_append_space _ _ ha hb
      (fun hc => na ((string_eq_empty_iff a).mpr hc))
      (fun hc => nb ((string_eq_empty_iff b).mpr hc))
  · intro hc
    rw [string_eq_empty_iff, hdata] at hc
    rcases List.append_eq_nil.mp hc with ⟨h1, _⟩
    exact na ((string_eq_empty_iff a).mpr h1)

/-- Every extracted sentence is nonempty with whitespace-free ends. -/
theorem extract_sentences_good (cfg : ChunkingConfig) (text : String) :
    ∀ s ∈ extract_sentences cfg text, goodEnds s.data ∧ s ≠ "" := by
  intro s hs
  unfold extract_sentences at hs
  by_cases hp : cfg.preserve_sentences
  · rw [if_pos hp] at hs
    rcases List.mem_filter.mp hs with ⟨hmem, hlen⟩
    rcases List.mem_map.mp hmem with ⟨seg, _, rfl⟩
    refine ⟨goodEnds_pyStrip _, ?_⟩
    intro hc
    rw [hc] at hlen
    simp at hlen
  · rw [if_neg hp] at hs
    unfold wordGroups at hs
    rcases List.mem_map.mp hs with ⟨g, hg, rfl⟩
    have hwords : ∀ w ∈ ((pySplitWs text).drop (20 * g)).take 20,
        w ≠ "" ∧ ∀ c ∈ w.data, pyIsSpace c = false := fun w hw =>
      pySplitWs_words text.toList w (List.mem_of_mem_drop (List.mem_of_mem_take hw))
    have hic := goodEnds_intercalate _ hwords
    refine ⟨hic.1, hic.2 ?_⟩
    have h20 : 20 * g < (pySplitWs text).length := by
      have := List.mem_range.mp hg
      omega
    intro hcon
    rcases List.take_eq_nil_iff.mp hcon with h | h
    · exact absurd h (by norm_num)
    · rw [List.drop_eq_nil_iff] at h
      omega

/-- With zero overlap (the config hypothesis of the amended size claim),
the seed of a new chunk is just the pending sentence. -/
theorem add_overlap_zero (cfg : ChunkingConfig) (chunks : List DocumentChunk)
    (s : String) (h : cfg.overlap_size = 0) : add_overlap cfg chunks s = s := by
  unfold add_overlap
  cases chunks.getLast? with
  | none => rfl
  | some prev =>
    dsimp only
    rw [if_pos h]

/-- The overlap seed always keeps whitespace-free ends. -/
theorem add_overlap_good (cfg : ChunkingConfig) (chunks : List DocumentChunk)
    (s : String) (hs : goodEnds s.data) (hsne : s ≠ "")
    (hchunks : ∀ c ∈ chunks, goodEnds c.content.data ∧ c.content ≠ "") :
    goodEnds (add_overlap cfg chunks s).data ∧ add_overlap cfg chunks s ≠ "" := by
  unfold add_overlap
  cases hl : chunks.getLast? with
  | none => exact ⟨hs, hsne⟩
  | some prev =>
    dsimp only
    have hprev := hchunks prev (List.mem_of_mem_getLast? hl)
    by_cases h0 : cfg.overlap_size = 0
    · rw [if_pos h0]; exact ⟨hs, hsne⟩
    · rw [if_neg h0]
      by_cases hlen : (pySplitWs prev.content).length > cfg.overlap_size
      · rw [if_pos hlen]
        have hwords : ∀ w ∈ (pySplitWs prev.content).drop
            ((pySplitWs prev.content).length - cfg.overlap_size),
            w ≠ "" ∧ ∀ c ∈ w.data, pyIsSpace c = false := fun w hw =>
          pySplitWs_words prev.content.toList w (List.mem_of_mem_drop hw)
        have hic := goodEnds_intercalate _ hwords
        have hne : (pySplitWs prev.content).drop
            ((pySplitWs prev.content).length - cfg.overlap_size) ≠ [] := by
          rw [Ne, List.drop_eq_nil_iff]
          omega
        exact goodEnds_strAppend _ _ (hic.1) hs (hic.2 hne) hsne
      · rw [if_neg hlen]
        exact goodEnds_strAppend _ _ hprev.1 hs hprev.2 hsne

/-- Invariant of the sentence-accumulation loop: every emitted chunk is
at least `min_chunk_size` long, with whitespace-free nonempty content
(stripping the accumulated text is the identity). -/
theorem chunkLoop_min (cfg : ChunkingConfig) (source : String) (pidx : ℕ)
    (sentences : List String) :
    ∀ (current : String) (chunks : List DocumentChunk),
    (∀ s ∈ sentences, goodEnds s.data ∧ s ≠ "") →
    goodEnds current.data →
    (∀ c ∈ chunks, cfg.min_chunk_size ≤ c.content.length ∧
      goodEnds c.content.data ∧ c.content ≠ "") →
    ∀ c ∈ chunkLoop cfg source pidx sentences current chunks,
      cfg.min_chunk_size ≤ c.content.length ∧
        goodEnds c.content.data ∧ c.content ≠ "" := by
  induction sentences with
  | nil =>
    intro current chunks hsent hcur hchunks c hc
    unfold chunkLoop at hc
    split at hc
    · rename_i hcond
      rcases List.mem_append.mp hc with hmem | hmem
      · exact hchunks c hmem
      · rcases List.mem_singleton.mp hmem with rfl
        have hstrip : pyStrip current = current := pyStrip_eq_self current hcur
        refine ⟨?_, ?_, ?_⟩ <;>
          simp only [create_chunk] <;> rw [hstrip]
        · exact hcond.2
        · exact hcur
        · exact hcond.1
    · exact hchunks c hc
  | cons s rest ih =>
    intro current chunks hsent hcur hchunks c hc
    have hsgood := hsent s (by simp)
    have hrest : ∀ t ∈ rest, goodEnds t.data ∧ t ≠ "" :=
      fun t ht => hsent t (List.mem_cons_of_mem _ ht)
    unfold chunkLoop at hc
    dsimp only at hc
    by_cases hcond : ((if current ≠ "" then current ++ " " ++ s else s).length >
        cfg.max_chunk_size ∧ current ≠ "")
    · rw [if_pos hcond] at hc
      by_cases hmin : current.length ≥ cfg.min_chunk_size
      · rw [if_pos hmin] at hc
        have hchunks' : ∀ d ∈ chunks ++
            [create_chunk (pyStrip current) source pidx chunks.length],
            cfg.min_chunk_size ≤ d.content.length ∧
              goodEnds d.content.data ∧ d.content ≠ "" := by
          intro d hd
          rcases List.mem_append.mp hd with hmem | hmem
          · exact hchunks d hmem
          · rcases List.mem_singleton.mp hmem with rfl
            have hstrip : pyStrip current = current := pyStrip_eq_self current hcur
            refine ⟨?_, ?_, ?_⟩ <;>
              simp only [create_chunk] <;> rw [hstrip]
            · exact hmin
            · exact hcur
            · exact hcond.2
        exact ih _ _ hrest
          (add_overlap_good cfg _ s hsgood.1 hsgood.2
            (fun d hd => (hchunks' d hd).2)).1 hchunks' c hc
      · rw [if_neg hmin] at hc
        exact ih _ _ hrest
          (add_overlap_good cfg _ s hsgood.1 hsgood.2
            (fun d hd => (hchunks d hd).2)).1 hchunks c hc
    · rw [if_neg hcond] at hc
      refine ih _ chunks hrest ?_ hchunks c hc
      by_cases hne : current = ""
      · rw [if_neg (show ¬ (current ≠ "") by simp [hne])]
        exact hsgood.1
      · rw [if_pos hne]
        exact (goodEnds_strAppend current s hcur hsgood.1 hne hsgood.2).1

/-- Invariant of the sentence-accumulation loop under zero overlap: with
every sentence within `max_chunk_size`, every emitted chunk stays within
`max_chunk_size`. -/
theorem chunkLoop_max (cfg : ChunkingConfig) (source : String) (pidx : ℕ)
    (hov : cfg.overlap_size = 0) (sentences : List String) :
    ∀ (current : String) (chunks : List DocumentChunk),
    (∀ s ∈ sentences, s.length ≤ cfg.max_chunk_size) →
    current.length ≤ cfg.max_chunk_size →
    (∀ c ∈ chunks, c.content.length ≤ cfg.max_chunk_size) →
    ∀ c ∈ chunkLoop cfg source pidx sentences current chunks,
      c.content.length ≤ cfg.max_chunk_size := by
  induction sentences with
  | nil =>
    intro current chunks _ hcur hchunks c hc
    unfold chunkLoop at hc
    split at hc
    · rcases List.mem_append.mp hc with hmem | hmem
      · exact hchunks c hmem
      · rcases List.mem_singleton.mp hmem with rfl
        simp only [create_chunk]
        exact le_trans (pyStrip_length_le current) hcur
    · exact hchunks c hc
  | cons s rest ih =>
    intro current chunks hsent hcur hchunks c hc
    have hslen := hsent s (by simp)
    have hrest : ∀ t ∈ rest, t.length ≤ cfg.max_chunk_size :=
      fun t ht => hsent t (List.mem_cons_of_mem _ ht)
    unfold chunkLoop at hc
    dsimp only at hc
    by_cases hcond : ((if current ≠ "" then current ++ " " ++ s else s).length >
        cfg.max_chunk_size ∧ current ≠ "")
    · rw [if_pos hcond] at hc
      rw [add_overlap_zero cfg _ s hov] at hc
      by_cases hmin : current.length ≥ cfg.min_chunk_size
      · rw [if_pos hmin] at hc
        refine ih _ _ hrest hslen ?_ c hc
        intro d hd
        rcases List.mem_append.mp hd with hmem | hmem
        · exact hchunks d hmem
        · rcases List.mem_singleton.mp hmem with rfl
          simp only [create_chunk]
          exact le_trans (pyStrip_length_le current) hcur
      · rw [if_neg hmin] at hc
        exact ih _ _ hrest hslen hchunks c hc
    · rw [if_neg hcond] at hc
      refine ih _ chunks hrest ?_ hchunks c hc
      by_cases hne : current = ""
      · rw [if_neg (show ¬ (current ≠ "") by simp [hne])]
        exact hslen
      · rw [if_pos hne]
        rw [Decidable.not_and_iff_or_not] at hcond
        rcases hcond with hcond | hcond
        · rw [if_pos hne] at hcond
          omega
        · exact absurd hne (by simpa using hcond)

/-- When no chunk is undersized the merge pass is the identity. -/
theorem optimize_chunks_id (cfg : ChunkingConfig) (chunks : List DocumentChunk)
    (h : ∀ c ∈ chunks, cfg.min_chunk_size ≤ c.content.length) :
    optimize_chunks cfg chunks = chunks := by
  have haux : ∀ (l : List DocumentChunk) (acc : List DocumentChunk),
      (∀ c ∈ l, cfg.min_chunk_size ≤ c.content.length) →
      l.foldl (optimizeStep cfg) acc = acc ++ l := by
    intro l
    induction l with
    | nil => intro acc _; simp
    | cons c rest ih =>
      intro acc hl
      rw [List.foldl_cons]
      rw [show optimizeStep cfg acc c = acc ++ [c] from by
        unfold optimizeStep
        rw [if_neg (by have := hl c (by simp); omega)]]
      rw [ih _ (fun d hd => hl d (List.mem_cons_of_mem _ hd))]
      simp
  unfold optimize_chunks
  rw [haux chunks [] h]
  simp

/-- The merge pass never produces an oversized chunk from chunks within
the maximum (the merge guard keeps combined length below the maximum). -/
theorem optimize_chunks_max (cfg : ChunkingConfig) (chunks : List DocumentChunk)
    (h : ∀ c ∈ chunks, c.content.length ≤ cfg.max_chunk_size) :
    ∀ c ∈ optimize_chunks cfg chunks, c.content.length ≤ cfg.max_chunk_size := by
  have haux : ∀ (l : List DocumentChunk) (acc : List DocumentChunk),
      (∀ c ∈ l, c.content.length ≤ cfg.max_chunk_size) →
      (∀ c ∈ acc, c.content.length ≤ cfg.max_chunk_size) →
      ∀ c ∈ l.foldl (optimizeStep cfg) acc, c.content.length ≤ cfg.max_chunk_size := by
    intro l
    induction l with
    | nil => intro acc _ hacc c hc; exact hacc c hc
    | cons d rest ih =>
      intro acc hl hacc c hc
      rw [List.foldl_cons] at hc
      refine ih _ (fun e he => hl e (List.mem_cons_of_mem _ he)) ?_ c hc
      intro e he
      unfold optimizeStep at he
      split at he
      · rename_i hsmall
        cases hlast : acc.getLast? with
        | none =>
          rw [hlast] at he
          dsimp only at he
          rcases List.mem_append.mp he with hmem | hmem
          · exact hacc e hmem
          · rcases List.mem_singleton.mp hmem with rfl
            exact hl e (by simp)
        | some prev =>
          rw [hlast] at he
          dsimp only at he
          split at he
          · rename_i hfit
            rcases List.mem_append.mp he with hmem | hmem
            · exact hacc e (List.mem_of_mem_dropLast hmem)
            · rcases List.mem_singleton.mp hmem with rfl
              show (prev.content ++ " " ++ d.content).length ≤ cfg.max_chunk_size
              rw [String.length_append, String.length_append]
              have : (" " : String).length = 1 := rfl
              omega
          · rcases List.mem_append.mp he with hmem | hmem
            · exact hacc e hmem
            · rcases List.mem_singleton.mp hmem with rfl
              exact hl e (by simp)
      · rcases List.mem_append.mp he with hmem | hmem
        · exact hacc e hmem
        · rcases List.mem_singleton.mp hmem with rfl
          exact hl e (by simp)
  intro c hc
  exact haux chunks [] h (by simp) c hc

/-- Collapsing whitespace leaves no newline (every whitespace run becomes
a single space). -/
theorem collapseWs_no_newline (l : List Char) : '\n' ∉ collapseWs l := by
  induction l using collapseWs.induct with
  | case1 => simp [collapseWs]
  | case2 c rest hsp ih =>
    rw [collapseWs, if_pos hsp]
    intro hmem
    rcases List.mem_cons.mp hmem with heq | hmem2
    · simp at heq
    · exact ih hmem2
  | case3 c rest hsp ih =>
    rw [collapseWs, if_neg hsp]
    intro hmem
    rcases List.mem_cons.mp hmem with heq | hmem2
    · rw [← heq] at hsp
      simp [pyIsSpace] at hsp
    · exact ih hmem2

/-- The blank-line substitution is the identity on newline-free text. -/
theorem subBlankRuns_id_of_no_newline (l : List Char) (h : '\n' ∉ l) :
    subBlankRuns l = l := by
  induction l with
  | nil => rfl
  | cons c rest ih =>
    rw [subBlankRuns]
    rw [if_neg (by intro hc; exact h (by simp [hc]))]
    rw [ih (fun hm => h (List.mem_cons_of_mem _ hm))]

/-- The stripped character list is a subset of the original. -/
theorem stripChars_subset (l : List Char) (c : Char) (h : c ∈ stripChars l) :
    c ∈ l := by
  unfold stripChars at h
  rw [List.mem_reverse] at h
  have h2 := (List.dropWhile_suffix pyIsSpace).subset h
  rw [List.mem_reverse] at h2
  exact (List.dropWhile_suffix pyIsSpace).subset h2

/-- Preprocessed content never contains a newline. -/
theorem preprocess_no_newline (text : String) :
    '\n' ∉ (preprocess_content text).data := by
  unfold preprocess_content
  dsimp only
  intro hmem
  have h1 : '\n' ∉ collapseWs text.toList := collapseWs_no_newline _
  rw [subBlankRuns_id_of_no_newline _ h1] at hmem
  rw [pyStrip_eq_stripChars] at hmem
  have h2 : '\n' ∈ stripChars ((collapseWs text.toList).filter keepableChar) := hmem
  exact h1 (List.mem_of_mem_filter (stripChars_subset _ _ h2))

/-- Splitting newline-free text on blank-line runs yields one segment. -/
theorem splitParagraphRuns_of_no_newline (l : List Char) (h : '\n' ∉ l) :
    splitParagraphRuns l = [l] := by
  induction l with
  | nil => rfl
  | cons c rest ih =>
    rw [splitParagraphRuns]
    rw [if_neg (by intro hc; exact h (by simp [hc]))]
    rw [ih (fun hm => h (List.mem_cons_of_mem _ hm))]
    rfl

/-- After preprocessing, the chunker always sees at most one paragraph. -/
theorem extract_paragraphs_preprocess (cfg : ChunkingConfig) (text : String) :
    extract_paragraphs cfg (preprocess_content text) = [] ∨
      ∃ p, extract_paragraphs cfg (preprocess_content text) = [p] := by
  unfold extract_paragraphs
  by_cases hp : cfg.preserve_paragraphs
  · rw [if_pos hp]
    rw [show (preprocess_content text).toList = (preprocess_content text).data from rfl,
      splitParagraphRuns_of_no_newline _ (preprocess_no_newline text)]
    simp only [List.map_cons, List.map_nil, List.filter]
    split
    · exact Or.inr ⟨_, rfl⟩
    · exact Or.inl rfl
  · rw [if_neg hp]
    exact Or.inr ⟨_, rfl⟩

theorem optimize_chunks_singleton (cfg : ChunkingConfig) (c : DocumentChunk) :
    optimize_chunks cfg [c] = [c] := by
  unfold optimize_chunks optimizeStep
  simp

/-- C5 (amended): after the merge pass, every chunk other than the first
and last is at least `min_chunk_size` long (unconditionally — in fact the
accumulation loop only ever emits chunks of at least the minimum size,
and the single-chunk short-paragraph case has no middle chunks); and
every chunk is at most `max_chunk_size` long provided the overlap seed is
empty and every extracted sentence fits within `max_chunk_size` — an
oversized single sentence (or an overlap seed exceeding the maximum) is
emitted as an oversized chunk, which is the flaw in the original claim. -/
theorem C5_chunk_size_bounds (cfg : ChunkingConfig) (text src : String) :
    (∀ c ∈ ((create_chunks cfg text src).drop 1).dropLast,
      cfg.min_chunk_size ≤ c.content.length) ∧
    (cfg.overlap_size = 0 →
      (∀ p ∈ extract_paragraphs cfg (preprocess_content text),
        ∀ s ∈ extract_sentences cfg p, s.length ≤ cfg.max_chunk_size) →
      ∀ c ∈ create_chunks cfg text src, c.content.length ≤ cfg.max_chunk_size) := by
  have hck : create_chunks cfg text src = optimize_chunks cfg
      (((extract_paragraphs cfg (preprocess_content text)).enum).flatMap
        (fun ip => chunk_paragraph cfg ip.2 src ip.1)) := rfl
  rcases extract_paragraphs_preprocess cfg text with hpar | ⟨p, hpar⟩
  · rw [hpar] at hck
    simp only [List.enum_nil, List.flatMap_nil] at hck
    have : create_chunks cfg text src = [] := by
      rw [hck]; rfl
    rw [this]
    constructor
    · intro c hc; simp at hc
    · intro _ _ c hc; simp at hc
  · rw [hpar] at hck
    have henum : ([p].enum).flatMap
        (fun ip => chunk_paragraph cfg ip.2 src ip.1) =
          chunk_paragraph cfg p src 0 := by
      simp [List.enum]
    rw [henum] at hck
    by_cases hfit : p.length ≤ cfg.max_chunk_size
    · have hcp : chunk_paragraph cfg p src 0 = [create_chunk p src 0 0] := by
        unfold chunk_paragraph
        rw [if_pos hfit]
      rw [hcp, optimize_chunks_singleton] at hck
      rw [hck]
      constructor
      · intro c hc
        simp at hc
      · intro _ _ c hc
        rcases List.mem_singleton.mp hc with rfl
        simpa [create_chunk] using hfit
    · have hcp : chunk_paragraph cfg p src 0 =
          chunkLoop cfg src 0 (extract_sentences cfg p) "" [] := by
        unfold chunk_paragraph
        rw [if_neg hfit]
      rw [hcp] at hck
      have hmin : ∀ c ∈ chunkLoop cfg src 0 (extract_sentences cfg p) "" [],
          cfg.min_chunk_size ≤ c.content.length ∧
            goodEnds c.content.data ∧ c.content ≠ "" :=
        chunkLoop_min cfg src 0 (extract_sentences cfg p) "" []
          (extract_sentences_good cfg p) goodEnds_nil (by intro c hc; simp at hc)
      have hid : optimize_chunks cfg
          (chunkLoop cfg src 0 (extract_sentences cfg p) "" []) =
            chunkLoop cfg src 0 (extract_sentences cfg p) "" [] :=
        optimize_chunks_id cfg _ (fun c hc => (hmin c hc).1)
      rw [hid] at hck
      constructor
      · intro c hc
        exact (hmin c (List.mem_of_mem_drop (List.mem_of_mem_dropLast
          (by rw [← hck]; exact hc)))).1
      · intro hov hsent c hc
        rw [hck] at hc
        exact chunkLoop_max cfg src 0 hov (extract_sentences cfg p) "" []
          (hsent p (by rw [hpar]; simp)) (by simp) (by intro d hd; simp at hd) c hc

/-- C5 witness: a four-sentence paragraph under
`max = 20, min = 5, overlap = 0` — the middle chunks respect the minimum
and, since every sentence fits, every chunk respects the maximum. -/
theorem C5_chunk_size_bounds_witness :
    (∀ c ∈ ((create_chunks ⟨20, 5, 0, 7/10, true, true⟩
        "aaaa bbbb cccc. dddd eeee ffff. gggg hhhh iiii. jjjj kkkk llll."
        "doc").drop 1).dropLast,
      (5 : ℕ) ≤ c.content.length) ∧
    (∀ c ∈ create_chunks ⟨20, 5, 0, 7/10, true, true⟩
        "aaaa bbbb cccc. dddd eeee ffff. gggg hhhh iiii. jjjj kkkk llll." "doc",
      c.content.length ≤ 20) :=
  ⟨(C5_chunk_size_bounds ⟨20, 5, 0, 7/10, true, true⟩
      "aaaa bbbb cccc. dddd eeee ffff. gggg hhhh iiii. jjjj kkkk llll." "doc").1,
   (C5_chunk_size_bounds ⟨20, 5, 0, 7/10, true, true⟩
      "aaaa bbbb cccc. dddd eeee ffff. gggg hhhh iiii. jjjj kkkk llll." "doc").2
     rfl (by decide)⟩

/-! ## Mapping-agent lemmas and claim C8 -/

/-- A looked-up value is among the dict values. -/
theorem mem_dictValues_of_dictGet {α : Type} (d : Dict α) (k : String) (v : α)
    (h : dictGet d k = some v) : v ∈ dictValues d := by
  induction d with
  | nil => simp [dictGet] at h
  | cons kv rest ih =>
    obtain ⟨k1, v1⟩ := kv
    simp only [dictGet] at h
    by_cases hk : k1 = k
    · rw [if_pos hk] at h
      injection h with h
      subst h
      simp [dictValues]
    · rw [if_neg hk] at h
      simp only [dictValues, List.map_cons, List.mem_cons]
      exact Or.inr (ih h)

/-- Any value of a dict after an insert is the new value or an old one. -/
theorem mem_dictValues_insert {α : Type} (d : Dict α) (k : String) (x y : α)
    (h : y ∈ dictValues (dictInsert d k x)) : y = x ∨ y ∈ dictValues d := by
  induction d with
  | nil =>
    simp only [dictInsert, dictValues, List.map_cons, List.map_nil,
      List.mem_singleton] at h
    exact Or.inl h
  | cons kv rest ih =>
    obtain ⟨k1, v1⟩ := kv
    simp only [dictValues, List.map_cons, List.mem_cons]
    by_cases hk : k1 = k
    · simp only [dictInsert, if_pos hk, dictValues, List.map_cons,
        List.mem_cons] at h
      rcases h with h | h
      · exact Or.inl h
      · exact Or.inr (Or.inr h)
    · simp only [dictInsert, if_neg hk, dictValues, List.map_cons,
        List.mem_cons] at h
      rcases h with h | h
      · exact Or.inr (Or.inl h)
      · rcases ih h with h2 | h2
        · exact Or.inl h2
        · exact Or.inr (Or.inr h2)

/-- The freshly inserted value is among the dict values. -/
theorem self_mem_dictValues_insert {α : Type} (d : Dict α) (k : String) (x : α) :
    x ∈ dictValues (dictInsert d k x) :=
  mem_dictValues_of_dictGet _ k x (dictGet_insert_self d k x)

/-- `find?` returns the unique element satisfying the predicate. -/
theorem find_of_unique {α : Type} (p : α → Bool) (x : α) :
    ∀ l : List α, x ∈ l → p x = true → (∀ y ∈ l, p y = true → y = x) →
      l.find? p = some x := by
  intro l
  induction l with
  | nil => intro hx _ _; simp at hx
  | cons a rest ih =>
    intro hx hp hu
    by_cases ha : p a = true
    · have hax : a = x := hu a (by simp) ha
      subst hax
      rw [List.find?_cons_of_pos _ ha]
    · rcases List.mem_cons.mp hx with rfl | hx2
      · exact absurd hp ha
      · rw [List.find?_cons_of_neg _ (by simpa using ha)]
        exact ih hx2 hp (fun y hy => hu y (by simp [hy]))

/-- `add_clause` folds touch only the clause and document indices. -/
theorem foldl_add_clause_rest (cs : List SourceClause) :
    ∀ st : MappingState,
      (cs.foldl add_clause st).decision_index = st.decision_index ∧
      (cs.foldl add_clause st).decision_traces = st.decision_traces ∧
      (cs.foldl add_clause st).traceability_links = st.traceability_links ∧
      (cs.foldl add_clause st).audit_log = st.audit_log := by
  induction cs with
  | nil => intro st; exact ⟨rfl, rfl, rfl, rfl⟩
  | cons c rest ih =>
    intro st
    rw [List.foldl_cons]
    obtain ⟨h1, h2, h3, h4⟩ := ih (add_clause st c)
    exact ⟨h1, h2, h3, h4⟩

/-- An `add_clause` fold leaves absent clause-index keys untouched. -/
theorem foldl_add_clause_get_ne (cs : List SourceClause) :
    ∀ (st : MappingState) (k : String), (∀ c ∈ cs, c.clause_id ≠ k) →
      dictGet (cs.foldl add_clause st).clause_index k =
        dictGet st.clause_index k := by
  induction cs with
  | nil => intro st k _; rfl
  | cons c rest ih =>
    intro st k hk
    rw [List.foldl_cons, ih _ k (fun d hd => hk d (by simp [hd]))]
    exact dictGet_insert_ne _ _ _ _ (hk c (by simp))

/-- With pairwise-distinct clause ids, the fold stores every clause's
data retrievably under its id. -/
theorem foldl_add_clause_get (cs : List SourceClause) :
    ∀ st : MappingState, (cs.map (fun c => c.clause_id)).Nodup →
      ∀ c ∈ cs, dictGet (cs.foldl add_clause st).clause_index c.clause_id =
        some (clauseDataOf c) := by
  induction cs with
  | nil => intro st _ c hc; simp at hc
  | cons a rest ih =>
    intro st hnd c hc
    rw [List.map_cons, List.nodup_cons] at hnd
    rcases List.mem_cons.mp hc with rfl | hc2
    · rw [List.foldl_cons,
        foldl_add_clause_get_ne rest (add_clause st c) c.clause_id
          (fun d hd hdk => hnd.1 (hdk ▸ List.mem_map_of_mem _ hd))]
      exact dictGet_insert_self _ _ _
    · rw [List.foldl_cons]
      exact ih (add_clause st a) hnd.2 c hc2

/-- A link-insertion fold leaves absent link keys untouched. -/
theorem foldl_linkInsert_get_ne (ls : List TraceabilityLink) :
    ∀ (d : Dict TraceabilityLink) (k : String), (∀ l ∈ ls, l.link_id ≠ k) →
      dictGet (ls.foldl (fun d l => dictInsert d l.link_id l) d) k =
        dictGet d k := by
  induction ls with
  | nil => intro d k _; rfl
  | cons a rest ih =>
    intro d k hk
    rw [List.foldl_cons, ih _ k (fun l hl => hk l (by simp [hl]))]
    exact dictGet_insert_ne _ _ _ _ (hk a (by simp))

/-- With pairwise-distinct link ids, every folded-in link is among the
resulting dict values. -/
theorem mem_foldl_linkInsert (ls : List TraceabilityLink) :
    ∀ (d : Dict TraceabilityLink) (l : TraceabilityLink), l ∈ ls →
      (ls.map TraceabilityLink.link_id).Nodup →
      l ∈ dictValues (ls.foldl (fun d l => dictInsert d l.link_id l) d) := by
  induction ls with
  | nil => intro d l hl _; simp at hl
  | cons a rest ih =>
    intro d l hl hnd
    rw [List.map_cons, List.nodup_cons] at hnd
    rcases List.mem_cons.mp hl with rfl | hl2
    · apply mem_dictValues_of_dictGet _ l.link_id
      rw [List.foldl_cons,
        foldl_linkInsert_get_ne rest _ l.link_id
          (fun x hx hxk => hnd.1 (hxk ▸ List.mem_map_of_mem _ hx))]
      exact dictGet_insert_self _ _ _
    · rw [List.foldl_cons]
      exact ih _ l hl2 hnd.2

/-- Field values of a freshly created traceability link. -/
theorem create_link_fields (link_id decision_id : String)
    (clause : SourceClause) (decision : DecisionResult) :
    (create_traceability_link link_id decision_id clause decision).link_id
        = link_id ∧
    (create_traceability_link link_id decision_id clause decision).decision_id
        = decision_id ∧
    (create_traceability_link link_id decision_id clause
        decision).source_clause_id = clause.clause_id := by
  unfold create_traceability_link
  rcases hA : analyze_clause_relationship clause decision with ⟨rt, s, e⟩
  exact ⟨rfl, rfl, rfl⟩

/-- Explicit shape of the state returned by `create_decision_trace`. -/
theorem create_decision_trace_state (st : MappingState)
    (trace_id decision_id : String) (link_ids : ℕ → String)
    (query : String) (entities : Entities) (decision_result : DecisionResult)
    (source_clauses : List SourceClause) (decision_path : List String) :
    (create_decision_trace st trace_id decision_id link_ids query entities
        decision_result source_clauses decision_path).2 =
      { clause_index := (source_clauses.foldl add_clause st).clause_index
        document_index := (source_clauses.foldl add_clause st).document_index
        decision_index := dictInsert st.decision_index decision_id
          (source_clauses.map (fun c => c.clause_id))
        decision_traces := dictInsert st.decision_traces trace_id
          { trace_id := trace_id
            query := query
            decision := decision_result.decision
            entities := entities
            confidence_score := decision_result.confidence_score
            source_links := source_clauses.enum.map (fun (i, clause) =>
              create_traceability_link (link_ids i) decision_id clause
                decision_result)
            decision_path := decision_path
            metadata_decision_id := decision_id
            metadata_amount := decision_result.amount }
        traceability_links := (source_clauses.enum.map (fun (i, clause) =>
            create_traceability_link (link_ids i) decision_id clause
              decision_result)).foldl
          (fun d l => dictInsert d l.link_id l) st.traceability_links
        audit_log := st.audit_log ++ ["decision_trace_created"] } := by
  obtain ⟨h1, h2, h3, h4⟩ := foldl_add_clause_rest source_clauses st
  unfold create_decision_trace
  dsimp only
  rw [h1, h2, h3, h4]


/-- C8: round-trip traceability — once `create_decision_trace` records a
decision with its source clauses, every clause is retrievable from the
decision side via `get_source_clauses_for_decision`, and the decision is
retrievable from each clause's side via `get_decisions_using_clause`
(under pairwise-distinct clause ids, injective fresh link UUIDs, and a
decision id not already carried by a stored trace). -/
theorem C8_roundtrip_traceability (st : MappingState)
    (trace_id decision_id : String) (link_ids : ℕ → String)
    (query : String) (entities : Entities) (decision_result : DecisionResult)
    (source_clauses : List SourceClause) (decision_path : List String)
    (hnd : (source_clauses.map (fun c => c.clause_id)).Nodup)
    (hinj : ∀ i < source_clauses.length, ∀ j < source_clauses.length,
      link_ids i = link_ids j → i = j)
    (hfresh : ∀ t ∈ dictValues st.decision_traces,
      t.metadata_decision_id ≠ decision_id) :
    ∀ c ∈ source_clauses,
      (∃ entry ∈ get_source_clauses_for_decision
          (create_decision_trace st trace_id decision_id link_ids query
            entities decision_result source_clauses decision_path).2
          decision_id,
        entry.document_name = c.document_name ∧
          entry.clause_text = c.clause_text) ∧
      (∃ entry ∈ get_decisions_using_clause
          (create_decision_trace st trace_id decision_id link_ids query
            entities decision_result source_clauses decision_path).2
          c.clause_id,
        entry.trace_id = trace_id ∧
          entry.decision = decision_result.decision) := by
  intro c hc
  rw [create_decision_trace_state]
  constructor
  · simp only [get_source_clauses_for_decision]
    have hids : dictGetD (dictInsert st.decision_index decision_id
        (source_clauses.map (fun c => c.clause_id))) decision_id [] =
          source_clauses.map (fun c => c.clause_id) := by
      rw [dictGetD, dictGet_insert_self]
      rfl
    rw [hids]
    have hget := foldl_add_clause_get source_clauses st hnd c hc
    refine ⟨{ document_name := (clauseDataOf c).document_name
              clause_text := (clauseDataOf c).clause_text
              relevance_score := (clauseDataOf c).relevance_score
              page_number := (clauseDataOf c).page_number
              word_count := (clauseDataOf c).word_count
              char_count := (clauseDataOf c).char_count
              traceability_links := List.map
                (fun l => (l.relationship_type, l.strength, l.explanation))
                (List.filter
                  (fun l => decide (l.source_clause_id = c.clause_id ∧
                    l.decision_id = decision_id))
                  (dictValues (List.foldl
                    (fun d l => dictInsert d l.link_id l)
                    st.traceability_links
                    (List.map (fun x => create_traceability_link (link_ids x.1)
                      decision_id x.2 decision_result)
                      source_clauses.enum)))) },
      List.mem_filterMap.mpr ⟨c.clause_id, List.mem_map_of_mem _ hc, ?_⟩,
      rfl, rfl⟩
    rw [hget]
    rfl
  · have hpair : ∃ p ∈ source_clauses.enum, p.2 = c := by
      have hc2 : c ∈ source_clauses.enum.map Prod.snd := by
        rw [List.enum_map_snd]
        exact hc
      rcases List.mem_map.mp hc2 with ⟨p, hp, hpc⟩
      exact ⟨p, hp, hpc⟩
    obtain ⟨⟨i, cl⟩, hp, hpc⟩ := hpair
    dsimp only at hpc
    subst hpc
    have hlmem : create_traceability_link (link_ids i) decision_id cl
        decision_result ∈ source_clauses.enum.map (fun (i, clause) =>
          create_traceability_link (link_ids i) decision_id clause
            decision_result) :=
      List.mem_map_of_mem _ hp
    have hkeys : ((source_clauses.enum.map (fun (i, clause) =>
        create_traceability_link (link_ids i) decision_id clause
          decision_result)).map TraceabilityLink.link_id).Nodup := by
      rw [List.map_map]
      have hfun : (TraceabilityLink.link_id ∘
          (fun ((i, clause) : ℕ × SourceClause) =>
            create_traceability_link (link_ids i) decision_id clause
              decision_result)) = fun p => link_ids p.1 := by
        funext q
        obtain ⟨j, d⟩ := q
        exact (create_link_fields _ _ _ _).1
      rw [hfun]
      have h2 : source_clauses.enum.map (fun p => link_ids p.1) =
          (source_clauses.enum.map Prod.fst).map link_ids := by
        rw [List.map_map]
        rfl
      rw [h2, List.enum_map_fst]
      exact List.Nodup.map_on
        (fun a ha b hb hab => hinj a (List.mem_range.mp ha) b
          (List.mem_range.mp hb) hab)
        (List.nodup_range _)
    have hvals : create_traceability_link (link_ids i) decision_id cl
        decision_result ∈ dictValues ((source_clauses.enum.map
          (fun (i, clause) =>
            create_traceability_link (link_ids i) decision_id clause
              decision_result)).foldl (fun d l => dictInsert d l.link_id l)
          st.traceability_links) :=
      mem_foldl_linkInsert _ _ _ hlmem hkeys
    have hdid : (create_traceability_link (link_ids i) decision_id cl
        decision_result).decision_id = decision_id :=
      (create_link_fields _ _ _ _).2.1
    have hfind : (dictValues (dictInsert st.decision_traces trace_id
        { trace_id := trace_id
          query := query
          decision := decision_result.decision
          entities := entities
          confidence_score := decision_result.confidence_score
          source_links := source_clauses.enum.map (fun (i, clause) =>
            create_traceability_link (link_ids i) decision_id clause
              decision_result)
          decision_path := decision_path
          metadata_decision_id := decision_id
          metadata_amount := decision_result.amount })).find?
        (fun t => decide (t.metadata_decision_id = decision_id)) =
        some { trace_id := trace_id
               query := query
               decision := decision_result.decision
               entities := entities
               confidence_score := decision_result.confidence_score
               source_links := source_clauses.enum.map (fun (i, clause) =>
                 create_traceability_link (link_ids i) decision_id clause
                   decision_result)
               decision_path := decision_path
               metadata_decision_id := decision_id
               metadata_amount := decision_result.amount } := by
      apply find_of_unique
      · exact self_mem_dictValues_insert _ _ _
      · simp
      · intro y hy hpy
        rcases mem_dictValues_insert _ _ _ _ hy with h | h
        · exact h
        · exact absurd (of_decide_eq_true hpy) (hfresh y h)
    simp only [get_decisions_using_clause]
    refine ⟨{ trace_id := trace_id
              decision := decision_result.decision
              query := query
              confidence_score := decision_result.confidence_score
              relationship_type := (create_traceability_link (link_ids i)
                decision_id cl decision_result).relationship_type
              relationship_strength := (create_traceability_link (link_ids i)
                decision_id cl decision_result).strength },
      List.mem_filterMap.mpr ⟨create_traceability_link (link_ids i)
        decision_id cl decision_result,
        List.mem_filter.mpr ⟨hvals, ?_⟩, ?_⟩,
      rfl, rfl⟩
    · rw [(create_link_fields _ _ _ _).2.2]
      simp
    · simp only [hdid]
      rw [hfind]
      rfl

/-- C8 witness: a single clause recorded into the empty mapping state
with fresh ids is retrievable in both directions. -/
theorem C8_roundtrip_traceability_witness :
    (∃ entry ∈ get_source_clauses_for_decision
        (create_decision_trace MappingState.initial "T1" "D1"
          (fun i => "L" ++ toString i) "q" []
          { decision := "approved"
            confidence_score := 1/2
            amount := none
            justification := ""
            decision_factors := []
            risk_assessment :=
              { overall_risk := "low", factors := [], risk_score := 0 } }
          [{ document_name := "doc.pdf"
             clause_id := "c1"
             clause_text := "text"
             relevance_score := 1/2
             page_number := none }]
          []).2 "D1",
      entry.document_name = "doc.pdf" ∧ entry.clause_text = "text") ∧
    (∃ entry ∈ get_decisions_using_clause
        (create_decision_trace MappingState.initial "T1" "D1"
          (fun i => "L" ++ toString i) "q" []
          { decision := "approved"
            confidence_score := 1/2
            amount := none
            justification := ""
            decision_factors := []
            risk_assessment :=
              { overall_risk := "low", factors := [], risk_score := 0 } }
          [{ document_name := "doc.pdf"
             clause_id := "c1"
             clause_text := "text"
             relevance_score := 1/2
             page_number := none }]
          []).2 "c1",
      entry.trace_id = "T1" ∧ entry.decision = "approved") :=
  C8_roundtrip_traceability MappingState.initial "T1" "D1"
    (fun i => "L" ++ toString i) "q" []
    { decision := "approved"
      confidence_score := 1/2
      amount := none
      justification := ""
      decision_factors := []
      risk_assessment :=
        { overall_risk := "low", factors := [], risk_score := 0 } }
    [{ document_name := "doc.pdf"
       clause_id := "c1"
       clause_text := "text"
       relevance_score := 1/2
       page_number := none }]
    []
    (by decide)
    (by intro i hi j hj _; simp only [List.length_singleton] at hi hj; omega)
    (by intro t ht; simp [MappingState.initial, dictValues] at ht)
    { document_name := "doc.pdf"
      clause_id := "c1"
      clause_text := "text"
      relevance_score := 1/2
      page_number := none }
    (by simp)

/-! ## Configuration claims C6 -/

/-- C6 counterexample: `RetrievalConfig` is a plain dataclass, so a
config whose weights sum to 1.4 constructs unhindered and
`similarity_search` runs with it, scoring and returning a result. -/
theorem C6_counterexample_unvalidated_config :
    (RetrievalConfig.mk 0.5 0.9 10 0.3 true).dense_weight +
        (RetrievalConfig.mk 0.5 0.9 10 0.3 true).sparse_weight ≠ 1 ∧
    similarity_search [⟨"d1", [1], [], "doc.pdf", "text", none⟩] [1] []
        (RetrievalConfig.mk 0.5 0.9 10 0.3 true) =
      [(⟨"d1", [1], [], "doc.pdf", "text", none⟩, 0.5)] := by
  constructor
  · norm_num
  · have hcos : cosine_similarity [1] [1] = 1 := by
      simp [cosine_similarity, sumSq, dotList]
    have hsp : sparse_similarity [] ([] : List (String × ℝ)) = 0 := by
      simp [sparse_similarity]
    simp only [similarity_search, List.map, hcos, hsp]
    norm_num [List.filter, sortByScoreDesc, List.insertionSort,
      List.orderedInsert]

/-- C6 (amended): no weight-sum validation guards `RetrievalConfig`
construction; the program's only such check is the startup validation of
the global `Settings`, which flags exactly those settings whose dense and
sparse weights do not sum to 1 (and `main.py` aborts on a nonempty issue
list). -/
theorem C6_weight_sum_validation (s : SettingsModel) :
    "Dense weight + Sparse weight must equal 1.0" ∈
        validate_configuration_numeric s ↔
      s.dense_weight + s.sparse_weight ≠ 1 := by
  unfold validate_configuration_numeric
  by_cases h : s.dense_weight + s.sparse_weight = 1
  · rw [if_neg (by simpa using h)]
    simp only [List.nil_append]
    constructor
    · intro hmem
      exfalso
      split_ifs at hmem <;> simp_all
    · intro hne
      exact absurd h hne
  · rw [if_pos (by simpa using h)]
    simp [h]

/-! ## Retrieval lemmas and claim C4 -/

/-- A list sum as a `Finset.range` sum of its entries. -/
theorem list_sum_eq_range (l : List ℝ) :
    l.sum = ∑ i in Finset.range l.length, l.getD i 0 := by
  induction l with
  | nil => simp
  | cons a t ih =>
    rw [List.sum_cons, List.length_cons, Finset.sum_range_succ', ih]
    simp [List.getD]
    ring

/-- `sumSq` as a `Finset.range` sum. -/
theorem sumSq_eq_range (v : List ℝ) :
    sumSq v = ∑ i in Finset.range v.length, v.getD i 0 ^ 2 := by
  induction v with
  | nil => simp [sumSq]
  | cons a t ih =>
    rw [show sumSq (a :: t) = a ^ 2 + sumSq t from by simp [sumSq], ih,
      List.length_cons, Finset.sum_range_succ']
    simp [List.getD]
    ring

/-- `dotList` as a `Finset.range` sum up to the shorter length. -/
theorem dotList_eq_range (v : List ℝ) :
    ∀ w : List ℝ, dotList v w =
      ∑ i in Finset.range (min v.length w.length), v.getD i 0 * w.getD i 0 := by
  induction v with
  | nil => intro w; simp [dotList]
  | cons a t ih =>
    intro w
    cases w with
    | nil => simp [dotList]
    | cons b u =>
      rw [show dotList (a :: t) (b :: u) = a * b + dotList t u from by
          simp [dotList], ih u, List.length_cons, List.length_cons,
        Nat.succ_min_succ, Finset.sum_range_succ']
      simp [List.getD]
      ring

/-- Truncated sums of squares are bounded by the full `sumSq`. -/
theorem sum_getD_sq_le (v : List ℝ) (m : ℕ) (hm : m ≤ v.length) :
    ∑ i in Finset.range m, v.getD i 0 ^ 2 ≤ sumSq v := by
  rw [sumSq_eq_range]
  exact Finset.sum_le_sum_of_subset_of_nonneg
    (Finset.range_subset.mpr hm) (fun i _ _ => sq_nonneg _)

/-- `sumSq` is nonnegative. -/
theorem sumSq_nonneg (v : List ℝ) : 0 ≤ sumSq v :=
  List.sum_nonneg (fun x hx => by
    rcases List.mem_map.mp hx with ⟨y, _, rfl⟩
    exact sq_nonneg y)

/-- Cauchy–Schwarz for the truncating dot product. -/
theorem dotList_le_sqrt (v w : List ℝ) :
    dotList v w ≤ Real.sqrt (sumSq v) * Real.sqrt (sumSq w) := by
  rw [dotList_eq_range]
  calc ∑ i in Finset.range (min v.length w.length), v.getD i 0 * w.getD i 0
      ≤ Real.sqrt (∑ i in Finset.range (min v.length w.length), v.getD i 0 ^ 2) *
        Real.sqrt (∑ i in Finset.range (min v.length w.length), w.getD i 0 ^ 2) :=
        Real.sum_mul_le_sqrt_mul_sqrt _ _ _
    _ ≤ Real.sqrt (sumSq v) * Real.sqrt (sumSq w) := by
        apply mul_le_mul
        · exact Real.sqrt_le_sqrt (sum_getD_sq_le v _ (Nat.min_le_left _ _))
        · exact Real.sqrt_le_sqrt (sum_getD_sq_le w _ (Nat.min_le_right _ _))
        · exact Real.sqrt_nonneg _
        · exact Real.sqrt_nonneg _

/-- The cosine similarity of the source never exceeds 1. -/
theorem cosine_similarity_le_one (v w : List ℝ) : cosine_similarity v w ≤ 1 := by
  unfold cosine_similarity
  dsimp only
  split_ifs with h
  · norm_num
  · push_neg at h
    have h1 : 0 < Real.sqrt (sumSq v) :=
      lt_of_le_of_ne (Real.sqrt_nonneg _) (Ne.symm h.1)
    have h2 : 0 < Real.sqrt (sumSq w) :=
      lt_of_le_of_ne (Real.sqrt_nonneg _) (Ne.symm h.2)
    rw [div_le_one (mul_pos h1 h2)]
    exact dotList_le_sqrt v w

/-- `sumSq` over a cons. -/
theorem sumSq_cons (a : ℝ) (l : List ℝ) : sumSq (a :: l) = a ^ 2 + sumSq l := by
  simp [sumSq]

/-- A successful dict lookup splits the dict at the key's first
occurrence. -/
theorem dictGet_decomp {α : Type} (w : Dict α) (k : String) (y : α)
    (h : dictGet w k = some y) :
    ∃ w1 w2, w = w1 ++ (k, y) :: w2 ∧ k ∉ w1.map Prod.fst := by
  induction w with
  | nil => simp [dictGet] at h
  | cons kv rest ih =>
    obtain ⟨k1, v1⟩ := kv
    simp only [dictGet] at h
    by_cases hk : k1 = k
    · rw [if_pos hk] at h
      injection h with h
      exact ⟨[], rest, by rw [hk, h]; rfl, by simp⟩
    · rw [if_neg hk] at h
      rcases ih h with ⟨w1, w2, heq, hnot⟩
      refine ⟨(k1, v1) :: w1, w2, by rw [heq]; rfl, ?_⟩
      simp only [List.map_cons, List.mem_cons]
      rintro (rfl | hmem)
      · exact hk rfl
      · exact hnot hmem

/-- Lookups of other keys skip over an entry. -/
theorem dictGet_append_skip {α : Type} (w1 : List (String × α))
    (k kq : String) (y : α) (w2 : List (String × α)) (h : kq ≠ k) :
    dictGet (w1 ++ (k, y) :: w2) kq = dictGet (w1 ++ w2) kq := by
  induction w1 with
  | nil => simp [dictGet, Ne.symm h]
  | cons kv rest ih =>
    obtain ⟨k1, v1⟩ := kv
    simp only [List.cons_append, dictGet]
    by_cases hk : k1 = kq
    · rw [if_pos hk, if_pos hk]
    · rw [if_neg hk, if_neg hk]
      exact ih

/-- `sparseSumSq` distributes over append. -/
theorem sparseSumSq_append (w1 w2 : List (String × ℝ)) :
    sparseSumSq (w1 ++ w2) = sparseSumSq w1 + sparseSumSq w2 := by
  simp [sparseSumSq]

/-- `sparseSumSq` is nonnegative. -/
theorem sparseSumSq_nonneg (w : List (String × ℝ)) : 0 ≤ sparseSumSq w :=
  List.sum_nonneg (fun x hx => by
    rcases List.mem_map.mp hx with ⟨y, _, rfl⟩
    exact sq_nonneg _)

/-- With pairwise-distinct query terms, the squared looked-up values are
bounded by the stored vector's sum of squares. -/
theorem sumSq_lookups_le (v : List (String × ℝ)) :
    ∀ w : List (String × ℝ), (v.map Prod.fst).Nodup →
      sumSq (v.map (fun kv => (dictGet w kv.1).getD 0)) ≤ sparseSumSq w := by
  induction v with
  | nil => intro w _; simpa [sumSq] using sparseSumSq_nonneg w
  | cons kv t ih =>
    intro w hnd
    obtain ⟨k, x⟩ := kv
    rw [List.map_cons, List.nodup_cons] at hnd
    rw [List.map_cons]
    dsimp only
    cases hw : dictGet w k with
    | none =>
      simp only [Option.getD_none]
      rw [sumSq_cons]
      simpa using ih w hnd.2
    | some y =>
      rcases dictGet_decomp w k y hw with ⟨w1, w2, rfl, hk1⟩
      simp only [Option.getD_some]
      rw [sumSq_cons]
      have hmap : t.map (fun kv => (dictGet (w1 ++ (k, y) :: w2) kv.1).getD 0) =
          t.map (fun kv => (dictGet (w1 ++ w2) kv.1).getD 0) := by
        apply List.map_congr_left
        intro kv2 hkv2
        have hne : kv2.1 ≠ k := by
          intro he
          apply hnd.1
          have hmm : kv2.1 ∈ List.map Prod.fst t :=
            List.mem_map_of_mem _ hkv2
          rw [he] at hmm
          exact hmm
        rw [dictGet_append_skip _ _ _ _ _ hne]
      rw [hmap]
      have hT := ih (w1 ++ w2) hnd.2
      have hw2 : sparseSumSq (w1 ++ (k, y) :: w2) =
          y ^ 2 + sparseSumSq (w1 ++ w2) := by
        rw [sparseSumSq_append, sparseSumSq_append,
          show sparseSumSq ((k, y) :: w2) = y ^ 2 + sparseSumSq w2 from by
            simp [sparseSumSq]]
        ring
      rw [hw2]
      linarith

/-- `sparseDot` is a truncating dot product of the query values against
the looked-up stored values. -/
theorem sparseDot_eq_dotList (v w : List (String × ℝ)) :
    sparseDot v w = dotList (v.map Prod.snd)
      (v.map (fun kv => (dictGet w kv.1).getD 0)) := by
  induction v with
  | nil => simp [sparseDot, dotList]
  | cons kv t ih =>
    obtain ⟨k, x⟩ := kv
    rw [show sparseDot ((k, x) :: t) w =
        (match dictGet w k with
         | some y => x * y
         | none => 0) + sparseDot t w from by simp [sparseDot], ih]
    cases hw : dictGet w k with
    | none => simp [dotList, hw]
    | some y => simp [dotList, hw]

/-- Cauchy–Schwarz bound for the sparse dot product, over pairwise
distinct query terms. -/
theorem sparseDot_le_sqrt (v w : List (String × ℝ))
    (hnd : (v.map Prod.fst).Nodup) :
    sparseDot v w ≤ Real.sqrt (sparseSumSq v) * Real.sqrt (sparseSumSq w) := by
  rw [sparseDot_eq_dotList]
  calc dotList (v.map Prod.snd) (v.map fun kv => (dictGet w kv.1).getD 0)
      ≤ Real.sqrt (sumSq (v.map Prod.snd)) *
        Real.sqrt (sumSq (v.map fun kv => (dictGet w kv.1).getD 0)) :=
        dotList_le_sqrt _ _
    _ ≤ Real.sqrt (sparseSumSq v) * Real.sqrt (sparseSumSq w) := by
        apply mul_le_mul
        · apply le_of_eq
          congr 1
          simp [sumSq, sparseSumSq, List.map_map, Function.comp_def]
        · exact Real.sqrt_le_sqrt (sumSq_lookups_le v w hnd)
        · exact Real.sqrt_nonneg _
        · exact Real.sqrt_nonneg _

/-- The sparse similarity never exceeds 1 (distinct query terms). -/
theorem sparse_similarity_le_one (v w : List (String × ℝ))
    (hnd : (v.map Prod.fst).Nodup) : sparse_similarity v w ≤ 1 := by
  unfold sparse_similarity
  dsimp only
  split_ifs with h1 h2
  · norm_num
  · norm_num
  · push_neg at h2
    have hp1 : 0 < Real.sqrt (sparseSumSq v) :=
      lt_of_le_of_ne (Real.sqrt_nonneg _) (Ne.symm h2.1)
    have hp2 : 0 < Real.sqrt (sparseSumSq w) :=
      lt_of_le_of_ne (Real.sqrt_nonneg _) (Ne.symm h2.2)
    rw [div_le_one (mul_pos hp1 hp2)]
    exact sparseDot_le_sqrt v w hnd

/-- Sorting by score permutes, hence preserves membership. -/
theorem mem_sortByScoreDesc (l : List (StoreEntry × ℝ)) (p : StoreEntry × ℝ) :
    p ∈ sortByScoreDesc l ↔ p ∈ l :=
  (List.perm_insertionSort _ l).mem_iff

/-- The weighted hybrid score is at most 1 under valid fusion weights. -/
theorem hybrid_score_le_one (config : RetrievalConfig) (qd : List ℝ)
    (qs : List (String × ℝ)) (e : StoreEntry)
    (hdw : 0 ≤ config.dense_weight) (hsw : 0 ≤ config.sparse_weight)
    (hsum : config.dense_weight + config.sparse_weight = 1)
    (hnd : (qs.map Prod.fst).Nodup) :
    config.dense_weight * cosine_similarity qd e.dense +
      config.sparse_weight * sparse_similarity qs e.sparse ≤ 1 := by
  have h1 := cosine_similarity_le_one qd e.dense
  have h2 := sparse_similarity_le_one qs e.sparse hnd
  have g1 : config.dense_weight * cosine_similarity qd e.dense ≤
      config.dense_weight * 1 := mul_le_mul_of_nonneg_left h1 hdw
  have g2 : config.sparse_weight * sparse_similarity qs e.sparse ≤
      config.sparse_weight * 1 := mul_le_mul_of_nonneg_left h2 hsw
  linarith

/-- Every result of `similarity_search` scores between the threshold
and 1. -/
theorem similarity_search_bounds (store : VectorStore) (qd : List ℝ)
    (qs : List (String × ℝ)) (config : RetrievalConfig)
    (hdw : 0 ≤ config.dense_weight) (hsw : 0 ≤ config.sparse_weight)
    (hsum : config.dense_weight + config.sparse_weight = 1)
    (hnd : (qs.map Prod.fst).Nodup) :
    ∀ p ∈ similarity_search store qd qs config,
      config.similarity_threshold ≤ p.2 ∧ p.2 ≤ 1 := by
  intro p hp
  unfold similarity_search at hp
  dsimp only at hp
  have hp2 := List.mem_of_mem_take hp
  rw [mem_sortByScoreDesc] at hp2
  rcases List.mem_filter.mp hp2 with ⟨hp3, hthr⟩
  rcases List.mem_map.mp hp3 with ⟨e, he, rfl⟩
  exact ⟨of_decide_eq_true hthr,
    hybrid_score_le_one config qd qs e hdw hsw hsum hnd⟩

/-- `similarity_search` results are sorted by non-increasing score. -/
theorem similarity_search_sorted (store : VectorStore) (qd : List ℝ)
    (qs : List (String × ℝ)) (config : RetrievalConfig) :
    List.Pairwise (fun (a b : StoreEntry × ℝ) => b.2 ≤ a.2)
      (similarity_search store qd qs config) := by
  unfold similarity_search
  dsimp only
  apply List.Pairwise.sublist (List.take_sublist _ _)
  unfold sortByScoreDesc
  haveI ht : IsTotal (StoreEntry × ℝ) (fun a b => b.2 ≤ a.2) :=
    ⟨fun a b => le_total b.2 a.2⟩
  haveI htr : IsTrans (StoreEntry × ℝ) (fun a b => b.2 ≤ a.2) :=
    ⟨fun a b c hab hbc => le_trans hbc hab⟩
  exact List.sorted_insertionSort _ _

/-- `similarity_search` returns at most `max_results` items. -/
theorem similarity_search_length (store : VectorStore) (qd : List ℝ)
    (qs : List (String × ℝ)) (config : RetrievalConfig) :
    (similarity_search store qd qs config).length ≤ config.max_results := by
  unfold similarity_search
  dsimp only
  exact List.length_take_le _ _

/-- Entity weights are nonnegative. -/
theorem entityWeight_nonneg (s : String) : 0 ≤ entityWeight s := by
  unfold entityWeight
  split_ifs <;> norm_num

/-- The re-rank bonus is nonnegative. -/
theorem rerankBonus_nonneg (entities : Entities) (t : String) :
    0 ≤ rerankBonus entities t := by
  apply List.sum_nonneg
  intro x hx
  rcases List.mem_map.mp hx with ⟨⟨ty, v⟩, _, rfl⟩
  cases v with
  | one s =>
    dsimp only
    split_ifs
    · exact mul_nonneg (entityWeight_nonneg ty) (by norm_num)
    · exact le_refl 0
  | many l => exact le_refl 0

/-- After the re-rank pass, scores stay within `[thr, 1]` whenever the
inputs scored at least `thr ≤ 1`. -/
theorem rerank_results_bounds (entities : Entities)
    (results : List RSourceClause) (thr : ℝ) (hthr1 : thr ≤ 1)
    (hres : ∀ c ∈ results, thr ≤ c.relevance_score) :
    ∀ c ∈ rerank_results entities results,
      thr ≤ c.relevance_score ∧ c.relevance_score ≤ 1 := by
  intro c hc
  unfold rerank_results at hc
  dsimp only at hc
  have hc2 := (List.perm_insertionSort _ _).mem_iff.mp hc
  rcases List.mem_map.mp hc2 with ⟨d, hd, rfl⟩
  dsimp only
  constructor
  · apply le_min hthr1
    calc thr ≤ d.relevance_score := hres d hd
      _ ≤ d.relevance_score +
          rerankBonus entities (pyLower d.clause_text) :=
        le_add_of_nonneg_right (rerankBonus_nonneg _ _)
  · exact min_le_left _ _

/-- The re-rank pass returns a list sorted by non-increasing score. -/
theorem rerank_results_sorted (entities : Entities)
    (results : List RSourceClause) :
    List.Pairwise (fun (a b : RSourceClause) =>
      b.relevance_score ≤ a.relevance_score)
      (rerank_results entities results) := by
  unfold rerank_results
  dsimp only
  haveI ht : IsTotal RSourceClause
      (fun a b => b.relevance_score ≤ a.relevance_score) :=
    ⟨fun a b => le_total b.relevance_score a.relevance_score⟩
  haveI htr : IsTrans RSourceClause
      (fun a b => b.relevance_score ≤ a.relevance_score) :=
    ⟨fun a b c hab hbc => le_trans hbc hab⟩
  exact List.sorted_insertionSort _ _

/-- The re-rank pass preserves length. -/
theorem rerank_results_length (entities : Entities)
    (results : List RSourceClause) :
    (rerank_results entities results).length = results.length := by
  unfold rerank_results
  dsimp only
  rw [(List.perm_insertionSort _ _).length_eq]
  simp

/-- C4: under valid fusion weights (nonnegative, summing to 1), a
threshold in `[0,1]` and pairwise-distinct sparse query terms, every
retrieved clause scores within `[threshold, 1] ⊆ [0,1]`, the result list
is sorted by non-increasing relevance (also after the re-rank pass, which
re-sorts), and at most `max_results` items are returned. -/
theorem C4_retrieval_guarantees (store : VectorStore) (query_dense : List ℝ)
    (query_sparse : List (String × ℝ)) (entities : Entities)
    (config : RetrievalConfig)
    (hdw : 0 ≤ config.dense_weight) (hsw : 0 ≤ config.sparse_weight)
    (hsum : config.dense_weight + config.sparse_weight = 1)
    (hthr0 : 0 ≤ config.similarity_threshold)
    (hthr1 : config.similarity_threshold ≤ 1)
    (hnd : (query_sparse.map Prod.fst).Nodup) :
    (∀ c ∈ retrieve_relevant_documents store query_dense query_sparse
        entities config,
      config.similarity_threshold ≤ c.relevance_score ∧
        0 ≤ c.relevance_score ∧ c.relevance_score ≤ 1) ∧
    List.Pairwise (fun (a b : RSourceClause) =>
      b.relevance_score ≤ a.relevance_score)
      (retrieve_relevant_documents store query_dense query_sparse entities
        config) ∧
    (retrieve_relevant_documents store query_dense query_sparse entities
        config).length ≤ config.max_results := by
  have hSb := similarity_search_bounds store query_dense query_sparse config
    hdw hsw hsum hnd
  have hmapb : ∀ c ∈ (similarity_search store query_dense query_sparse
      config).map (fun (e, score) =>
        ({ document_name := e.document_source
           clause_id := e.doc_id
           clause_text := e.content
           relevance_score := score
           page_number := e.paragraph_index } : RSourceClause)),
      config.similarity_threshold ≤ c.relevance_score ∧
        c.relevance_score ≤ 1 := by
    intro c hcm
    rcases List.mem_map.mp hcm with ⟨p, hp, rfl⟩
    exact hSb p hp
  unfold retrieve_relevant_documents
  dsimp only
  cases hrr : config.rerank_results with
  | false =>
    rw [if_neg (by simp)]
    refine ⟨?_, ?_, ?_⟩
    · intro c hcm
      rcases hmapb c hcm with ⟨h1, h2⟩
      exact ⟨h1, le_trans hthr0 h1, h2⟩
    · rw [List.pairwise_map]
      exact similarity_search_sorted store query_dense query_sparse config
    · rw [List.length_map]
      exact similarity_search_length store query_dense query_sparse config
  | true =>
    rw [if_pos (by simp)]
    refine ⟨?_, ?_, ?_⟩
    · intro c hcm
      rcases rerank_results_bounds entities _ config.similarity_threshold
        hthr1 (fun d hd => (hmapb d hd).1) c hcm with ⟨h1, h2⟩
      exact ⟨h1, le_trans hthr0 h1, h2⟩
    · exact rerank_results_sorted entities _
    · rw [rerank_results_length, List.length_map]
      exact similarity_search_length store query_dense query_sparse config

/-- C4 witness: the default configuration over an empty store — all
hypotheses hold and the guarantees follow by the theorem. -/
theorem C4_retrieval_guarantees_witness :
    (∀ c ∈ retrieve_relevant_documents [] [] [] []
        (RetrievalConfig.mk 0.7 0.3 10 0.6 true),
      (0.6 : ℝ) ≤ c.relevance_score ∧
        0 ≤ c.relevance_score ∧ c.relevance_score ≤ 1) ∧
    List.Pairwise (fun (a b : RSourceClause) =>
      b.relevance_score ≤ a.relevance_score)
      (retrieve_relevant_documents [] [] [] []
        (RetrievalConfig.mk 0.7 0.3 10 0.6 true)) ∧
    (retrieve_relevant_documents [] [] [] []
        (RetrievalConfig.mk 0.7 0.3 10 0.6 true)).length ≤ 10 :=
  C4_retrieval_guarantees [] [] [] [] (RetrievalConfig.mk 0.7 0.3 10 0.6 true)
    (by norm_num) (by norm_num) (by norm_num) (by norm_num) (by norm_num)
    (by simp)
